import Mathlib

/-!
# Receipt processor: validation, scoring and the in-memory store

A shallow embedding of `internal/handlers.go`, `internal/points.go` and
`internal/storage.go`.

Conventions of the embedding

* A Go `string` holding text decoded from JSON is a Lean `String`; `len` is the
  UTF-8 byte length and regular expressions read the string rune by rune.
* Go's `int` is the 64-bit two's-complement integer of the 64-bit targets:
  every `+=` is followed by `wrap64`.
* `float64` values are modelled exactly (`F64`): a finite value is an integer
  times a power of two and every operation rounds to nearest, ties to even.
* Library behaviour that the sources do not pin down is a field of `GoEnv`:
  what `strconv.ParseFloat` returns outside the plain `digits.digits` syntax and
  what a float-to-int conversion yields when the value does not fit.
-/

namespace Receipts

/-! ## Data model -/

/-- Modelled from the spec: the `Item` struct (its declaration is not among the
source files); the fields are the ones `handlers.go` and `points.go` read. -/
structure Item where
  ShortDescription : String
  Price : String
  deriving DecidableEq

/-- Modelled from the spec: the `Receipt` struct (its declaration is not among
the source files); the fields are the ones `handlers.go` and `points.go` read. -/
structure Receipt where
  Retailer : String
  PurchaseDate : String
  PurchaseTime : String
  Total : String
  Items : List Item
  deriving DecidableEq

/-! ## Character classes of Go's `regexp` (RE2 syntax, ASCII only) -/

/-- The class `\d`, that is `[0-9]`. -/
def isDigit (c : Char) : Bool := 48 ≤ c.toNat && c.toNat ≤ 57

/-- The class `[a-zA-Z]`. -/
def isAsciiLetter (c : Char) : Bool :=
  (65 ≤ c.toNat && c.toNat ≤ 90) || (97 ≤ c.toNat && c.toNat ≤ 122)

/-- The class `[a-zA-Z0-9]` of rule 1. -/
def isAlnum (c : Char) : Bool := isAsciiLetter c || isDigit c

/-- The class `\w`, that is `[0-9A-Za-z_]`. -/
def isWord (c : Char) : Bool := isAlnum c || c.toNat == 95

/-- The class `\s`, that is `[\t\n\f\r ]`. -/
def isReSpace (c : Char) : Bool :=
  c.toNat == 9 || c.toNat == 10 || c.toNat == 12 || c.toNat == 13 || c.toNat == 32

/-- The class `[\w\s\-&]` of the retailer pattern. -/
def isRetailerChar (c : Char) : Bool :=
  isWord c || isReSpace c || c.toNat == 45 || c.toNat == 38

/-- The pattern `^[\w\s\-&]+$`. -/
def retailerPattern (s : String) : Bool :=
  !s.data.isEmpty && s.data.all isRetailerChar

/-- The pattern `^\d{4}-\d{2}-\d{2}$`. -/
def datePattern (s : String) : Bool :=
  match s.data with
  | [y1, y2, y3, y4, p, m1, m2, q, d1, d2] =>
    isDigit y1 && isDigit y2 && isDigit y3 && isDigit y4 && p.toNat == 45 &&
    isDigit m1 && isDigit m2 && q.toNat == 45 && isDigit d1 && isDigit d2
  | _ => false

/-- The pattern `^\d{2}:\d{2}$`. -/
def timePattern (s : String) : Bool :=
  match s.data with
  | [h1, h2, p, m1, m2] =>
    isDigit h1 && isDigit h2 && p.toNat == 58 && isDigit m1 && isDigit m2
  | _ => false

/-- The pattern `^\d+\.\d{2}$` on a list of runes: the longest run of digits,
which must not be empty, then a point and exactly two digits. -/
def decimalPattern (cs : List Char) : Bool :=
  !(cs.takeWhile isDigit).isEmpty &&
  match cs.dropWhile isDigit with
  | [p, a, b] => p.toNat == 46 && isDigit a && isDigit b
  | _ => false

/-- The pattern `^\d+\.\d{2}$` of the total. -/
def totalPattern (s : String) : Bool := decimalPattern s.data

/-- The pattern `^\d+\.\d{2}$` of an item price. -/
def pricePattern (s : String) : Bool := decimalPattern s.data

/-- The function `strconv.Itoa` on a non-negative argument. -/
def Itoa (n : Nat) : String := toString n

/-! ## `validateReceipt` (handlers.go) -/

/-- The body of the loop over `receipt.Items`: `i` is the zero-based index of
the first item of the list and `errors` the slice built so far. -/
def validateItems : List Item → Nat → List String → List String
  | [], _, errors => errors
  | item :: rest, i, errors =>
    let errors :=
      if item.ShortDescription = "" then
        errors ++ ["Item " ++ Itoa (i + 1) ++ " is missing a ShortDescription."]
      else errors
    let errors :=
      if item.Price = "" then
        errors ++ ["Item " ++ Itoa (i + 1) ++ " is missing a Price."]
      else if !pricePattern item.Price then
        errors ++ ["Item " ++ Itoa (i + 1) ++
          " Price must be a decimal value with two decimal places."]
      else errors
    validateItems rest (i + 1) errors

/-- The function `validateReceipt`: the pair `(len(errors) == 0, errors)`. -/
def validateReceipt (receipt : Receipt) : Bool × List String :=
  let errors : List String := []
  let errors :=
    if receipt.Retailer = "" then errors ++ ["Retailer is required."]
    else if !retailerPattern receipt.Retailer then
      errors ++ ["Retailer contains invalid characters."]
    else errors
  let errors :=
    if receipt.PurchaseDate = "" then errors ++ ["PurchaseDate is required."]
    else if !datePattern receipt.PurchaseDate then
      errors ++ ["PurchaseDate must be in YYYY-MM-DD format."]
    else errors
  let errors :=
    if receipt.PurchaseTime = "" then errors ++ ["PurchaseTime is required."]
    else if !timePattern receipt.PurchaseTime then
      errors ++ ["PurchaseTime must be in HH:MM format."]
    else errors
  let errors :=
    if receipt.Total = "" then errors ++ ["Total is required."]
    else if !totalPattern receipt.Total then
      errors ++ ["Total must be a decimal value with two decimal places."]
    else errors
  let errors :=
    if receipt.Items.length = 0 then errors ++ ["At least one item is required."]
    else validateItems receipt.Items 0 errors
  (errors.length == 0, errors)

/-- The receipt of the handler test "Valid receipt JSON payload". -/
def targetReceipt : Receipt :=
  { Retailer := "Target"
    PurchaseDate := "2022-01-01"
    PurchaseTime := "13:01"
    Total := "35.35"
    Items := [{ ShortDescription := "Mountain Dew 12PK", Price := "6.49" }] }

/-! ## Machine integers -/

/-- The value of a 64-bit two's-complement `int` that holds `x` modulo `2^64`. -/
def wrap64 (x : Int) : Int := (x + 9223372036854775808) % 18446744073709551616 - 9223372036854775808

/-! ## `float64` -/

/-- A `float64` value: `fin m e` is the real number `m * 2^e`; the two zeros are
not told apart, since nothing in the program divides by one or prints one. -/
inductive F64 where
  | fin (m : Int) (e : Int)
  | inf (neg : Bool)
  | nan
  deriving DecidableEq

/-- Number of binary digits of `n`, computed with `fuel` halvings at most. -/
def bitsAux : Nat → Nat → Nat
  | 0, _ => 0
  | fuel + 1, n => if n = 0 then 0 else bitsAux fuel (n / 2) + 1

/-- Number of binary digits of `n` (`0` for `0`). -/
def bitLength (n : Nat) : Nat := bitsAux n n

/-- The fraction `(n / d) / 2^k` as a numerator and a denominator. -/
def scale2 (n d : Nat) (k : Int) : Nat × Nat :=
  if 0 ≤ k then (n, d * 2 ^ k.toNat) else (n * 2 ^ (-k).toNat, d)

/-- The integer nearest to `n / d`, the even one of the two when `n / d` lies
halfway between them. -/
def roundHalfEven (n d : Nat) : Nat :=
  let q := n / d
  let r := n % d
  if 2 * r < d then q
  else if d < 2 * r then q + 1
  else if q % 2 = 0 then q else q + 1

/-- The exponent `e` with `2^e ≤ n / d < 2^(e+1)`, for `n` and `d` positive. -/
def floorLog2 (n d : Nat) : Int :=
  let e0 : Int := (bitLength n : Int) - (bitLength d : Int)
  let s := scale2 n d e0
  if s.2 ≤ s.1 then e0 else e0 - 1

/-- The `float64` nearest to `± n / d` (round to nearest, ties to even): 53
significant bits, least exponent `-1074` for the unit in the last place,
infinity from `2^1024 - 2^970` on. -/
def F64.ofRatio (neg : Bool) (n d : Nat) : F64 :=
  if n = 0 then .fin 0 0
  else
    let q : Int := max (floorLog2 n d) (-1022) - 52
    let s := scale2 n d q
    let m := roundHalfEven s.1 s.2
    if 971 < q ∨ (q = 971 ∧ 9007199254740992 ≤ m) then .inf neg
    else .fin (if neg then -(m : Int) else (m : Int)) q

/-- The `float64` that holds the integer constant `n` (for `n` below `2^53`). -/
def F64.ofNat (n : Nat) : F64 := .fin n 0

/-- The product of two floats, rounded. -/
def F64.mul : F64 → F64 → F64
  | .fin m1 e1, .fin m2 e2 =>
    let s := scale2 (m1 * m2).natAbs 1 (-(e1 + e2))
    F64.ofRatio (decide (m1 * m2 < 0)) s.1 s.2
  | .nan, _ => .nan
  | _, .nan => .nan
  | .inf a, .inf b => .inf (xor a b)
  | .inf a, .fin m _ => if m = 0 then .nan else .inf (xor a (decide (m < 0)))
  | .fin m _, .inf b => if m = 0 then .nan else .inf (xor (decide (m < 0)) b)

/-- The function `math.Floor`. -/
def F64.floor : F64 → F64
  | .fin m e => if 0 ≤ e then .fin m e else .fin (m / 2 ^ (-e).toNat) 0
  | x => x

/-- The function `math.Ceil`. -/
def F64.ceil : F64 → F64
  | .fin m e => if 0 ≤ e then .fin m e else .fin (-((-m) / 2 ^ (-e).toNat)) 0
  | x => x

/-- The comparison `==` of two floats. -/
def F64.eq : F64 → F64 → Bool
  | .fin m1 e1, .fin m2 e2 =>
    let k := min e1 e2
    decide (m1 * 2 ^ (e1 - k).toNat = m2 * 2 ^ (e2 - k).toNat)
  | .inf a, .inf b => a == b
  | _, _ => false

/-- What the Go library and compiler do where the sources of this program do
not decide it. -/
structure GoEnv where
  /-- The value `strconv.ParseFloat(s, 64)` returns (with or without an error)
  for a string that is not digits, a point and digits. -/
  parseFloatOther : String → F64
  /-- The result of converting to `int` a float that is NaN, infinite or whose
  integer part does not fit 64 bits (implementation-dependent in Go). -/
  convertOther : F64 → Int

/-- The conversion `int(f)`: the integer part of `f` when it fits 64 bits. -/
def F64.toInt (env : GoEnv) (f : F64) : Int :=
  match f with
  | .fin m e =>
    let t : Int := if 0 ≤ e then m * 2 ^ e.toNat else Int.tdiv m (2 ^ (-e).toNat)
    if -9223372036854775808 ≤ t ∧ t < 9223372036854775808 then t
    else wrap64 (env.convertOther f)
  | _ => wrap64 (env.convertOther f)

/-- The number a list of decimal digits writes. -/
def digitsValue (cs : List Char) : Nat :=
  cs.foldl (fun acc c => 10 * acc + (c.toNat - 48)) 0

/-- The integer and fraction digits of a string of the form digits, point,
digits (both runs non-empty). -/
def decimalParts (cs : List Char) : Option (List Char × List Char) :=
  let ip := cs.takeWhile isDigit
  match cs.dropWhile isDigit with
  | p :: fp =>
    if p.toNat == 46 && !ip.isEmpty && !fp.isEmpty && fp.all isDigit then some (ip, fp)
    else none
  | [] => none

/-- The value of `f, _ := strconv.ParseFloat(s, 64)`: on digits, point, digits
the float nearest to the decimal number written. -/
def ParseFloat (env : GoEnv) (s : String) : F64 :=
  match decimalParts s.data with
  | some (ip, fp) => F64.ofRatio false (digitsValue (ip ++ fp)) (10 ^ fp.length)
  | none => env.parseFloatOther s

/-! ## `time.Parse` for the two layouts the program uses -/

/-- A `time.Time` as far as the program reads it: the calendar fields in UTC. -/
structure Time where
  year : Nat
  month : Nat
  day : Nat
  hour : Nat
  minute : Nat
  deriving DecidableEq

/-- The zero `Time`, January 1 of year 1 at 00:00, which `time.Parse` returns
together with an error. -/
def Time.zero : Time := { year := 1, month := 1, day := 1, hour := 0, minute := 0 }

/-- The method `Time.Day`. -/
def Time.Day (t : Time) : Nat := t.day

/-- The method `Time.Hour`. -/
def Time.Hour (t : Time) : Nat := t.hour

/-- The value of the decimal digit `c`. -/
def digitVal (c : Char) : Nat := c.toNat - 48

/-- The helper `getnum` of package time: one or two leading digits, two when
`fixed`; the number and the rest of the text. -/
def getnum (s : List Char) (fixed : Bool) : Option (Nat × List Char) :=
  match s with
  | a :: rest =>
    if !isDigit a then none
    else
      match rest with
      | b :: rest2 =>
        if isDigit b then some (digitVal a * 10 + digitVal b, rest2)
        else if fixed then none else some (digitVal a, rest)
      | [] => if fixed then none else some (digitVal a, rest)
  | [] => none

/-- The function `isLeap` of package time. -/
def isLeap (year : Nat) : Bool := year % 4 == 0 && (year % 100 != 0 || year % 400 == 0)

/-- The function `daysIn` of package time, for a month in 1..12. -/
def daysIn (month year : Nat) : Nat :=
  if month == 2 then (if isLeap year then 29 else 28)
  else if month == 4 || month == 6 || month == 9 || month == 11 then 30
  else 31

/-- The call `time.Parse("2006-01-02", value)`: a four-digit year, `-`, a
two-digit month in 1..12, `-`, a two-digit day that exists in that month, and
nothing more; `none` stands for the error. -/
def parseDate (value : String) : Option Time :=
  match value.data with
  | y1 :: y2 :: y3 :: y4 :: rest =>
    if !(isDigit y1 && isDigit y2 && isDigit y3 && isDigit y4) then none
    else
      let year := digitVal y1 * 1000 + digitVal y2 * 100 + digitVal y3 * 10 + digitVal y4
      match rest with
      | p :: rest =>
        if p.toNat != 45 then none
        else
          match getnum rest true with
          | none => none
          | some (month, rest) =>
            if month == 0 || 12 < month then none
            else
              match rest with
              | q :: rest =>
                if q.toNat != 45 then none
                else
                  match getnum rest true with
                  | none => none
                  | some (day, rest) =>
                    if !rest.isEmpty then none
                    else if day < 1 || daysIn month year < day then none
                    else some { year := year, month := month, day := day, hour := 0, minute := 0 }
              | [] => none
      | [] => none
  | _ => none

/-- The call `time.Parse("15:04", value)`: an hour of one or two digits below
24, `:`, a two-digit minute below 60, and nothing more; the date fields take
their defaults (January 1 of year 0); `none` stands for the error. -/
def parseClock (value : String) : Option Time :=
  match getnum value.data false with
  | none => none
  | some (hour, rest) =>
    if 24 ≤ hour then none
    else
      match rest with
      | p :: rest =>
        if p.toNat != 58 then none
        else
          match getnum rest true with
          | none => none
          | some (minute, rest) =>
            if 60 ≤ minute then none
            else if !rest.isEmpty then none
            else some { year := 0, month := 1, day := 1, hour := hour, minute := minute }
      | [] => none

/-! ## `strings.TrimSpace` -/

/-- The function `unicode.IsSpace`: the code points with the White_Space property. -/
def isUnicodeSpace (c : Char) : Bool :=
  let n := c.toNat
  (9 ≤ n && n ≤ 13) || n == 32 || n == 133 || n == 160 || n == 5760 ||
  (8192 ≤ n && n ≤ 8202) || n == 8232 || n == 8233 || n == 8239 || n == 8287 || n == 12288

/-- The function `strings.TrimSpace` on the runes of a string. -/
def TrimSpace (cs : List Char) : List Char :=
  ((cs.dropWhile isUnicodeSpace).reverse.dropWhile isUnicodeSpace).reverse

/-- The built-in `len` of a string given by its runes: the number of bytes of its UTF-8 form. -/
def byteLen (cs : List Char) : Nat := (cs.map Char.utf8Size).sum

/-! ## `CalculatePoints` (points.go) -/

/-- The length of `FindAllString` for the pattern `[a-zA-Z0-9]`: the number of
ASCII letters and digits of the string. -/
def countAlnum (s : String) : Nat := (s.data.filter isAlnum).length

/-- Rule 1: one point for every alphanumeric character in the retailer name. -/
def rule1 (receipt : Receipt) (points : Int) : Int :=
  wrap64 (points + (countAlnum receipt.Retailer : Int))

/-- Rule 2: 50 points if the total is a round dollar amount. -/
def rule2 (env : GoEnv) (receipt : Receipt) (points : Int) : Int :=
  let totalFloat := ParseFloat env receipt.Total
  if F64.eq totalFloat (F64.floor totalFloat) then wrap64 (points + 50) else points

/-- Rule 3: 25 points if `int(totalFloat*100) % 25 == 0`. -/
def rule3 (env : GoEnv) (receipt : Receipt) (points : Int) : Int :=
  let totalFloat := ParseFloat env receipt.Total
  if Int.tmod (F64.toInt env (F64.mul totalFloat (F64.ofNat 100))) 25 = 0 then wrap64 (points + 25)
  else points

/-- Rule 4: 5 points for every two items. -/
def rule4 (receipt : Receipt) (points : Int) : Int :=
  wrap64 (points + wrap64 (((receipt.Items.length / 2 : Nat) : Int) * 5))

/-- The float constant `0.2`. -/
def F64.fifth : F64 := F64.ofRatio false 2 10

/-- The body of the loop of rule 5 for one item. -/
def rule5Item (env : GoEnv) (points : Int) (item : Item) : Int :=
  let descLen := byteLen (TrimSpace item.ShortDescription.data)
  if descLen % 3 = 0 then
    let itemPrice := ParseFloat env item.Price
    wrap64 (points + F64.toInt env (F64.ceil (F64.mul itemPrice F64.fifth)))
  else points

/-- Rule 5: points for item descriptions whose trimmed length is a multiple of 3. -/
def rule5 (env : GoEnv) (receipt : Receipt) (points : Int) : Int :=
  receipt.Items.foldl (rule5Item env) points

/-- Rule 7: 6 points if the day of the purchase date is odd; a date that does
not parse leaves the zero `Time` in `purchaseDate`. -/
def rule7 (receipt : Receipt) (points : Int) : Int :=
  let purchaseDate := (parseDate receipt.PurchaseDate).getD Time.zero
  if purchaseDate.Day % 2 ≠ 0 then wrap64 (points + 6) else points

/-- Rule 8: 10 points if the hour of the purchase time is 14; a time that does
not parse leaves the zero `Time` in `purchaseTime`. -/
def rule8 (receipt : Receipt) (points : Int) : Int :=
  let purchaseTime := (parseClock receipt.PurchaseTime).getD Time.zero
  if purchaseTime.Hour = 14 then wrap64 (points + 10) else points

/-- The function `CalculatePoints`: the rules run in the order of the source
on the running total `points`, which starts at 0 (rule 6 is a comment only). -/
def CalculatePoints (env : GoEnv) (receipt : Receipt) : Int :=
  let points : Int := 0
  let points := rule1 receipt points
  let points := rule2 env receipt points
  let points := rule3 env receipt points
  let points := rule4 receipt points
  let points := rule5 env receipt points
  let points := rule7 receipt points
  let points := rule8 receipt points
  points

/-! ## The store (storage.go) -/

/-- The struct `InMemoryStorage`: its two maps (the mutex only serialises the
calls and has no state of its own between them). -/
structure InMemoryStorage where
  receipts : String → Option Receipt
  points : String → Option Int

/-- The initial value of the package variable `Store`: two empty maps. -/
def Store : InMemoryStorage := { receipts := fun _ => none, points := fun _ => none }

/-- The method `SaveReceipt`: both maps are assigned at `id`. -/
def InMemoryStorage.SaveReceipt (s : InMemoryStorage) (id : String) (receipt : Receipt)
    (points : Int) : InMemoryStorage :=
  { receipts := fun k => if k = id then some receipt else s.receipts k
    points := fun k => if k = id then some points else s.points k }

/-- The method `GetPoints`: the two-value map read `points, exists := s.points[id]`,
which yields the zero value of `int` for an absent key. -/
def InMemoryStorage.GetPoints (s : InMemoryStorage) (id : String) : Int × Bool :=
  match s.points id with
  | some points => (points, true)
  | none => (0, false)

/-- One call of `SaveReceipt`, as data: the id, the receipt and the points. -/
abbrev SaveCall := String × Receipt × Int

/-- The store after a sequence of `SaveReceipt` calls. -/
def runSaves (s : InMemoryStorage) (calls : List SaveCall) : InMemoryStorage :=
  calls.foldl (fun st c => st.SaveReceipt c.1 c.2.1 c.2.2) s

/-! ## What each rule adds, as an unbounded integer -/

/-- What rule 2 adds: 50 or 0. -/
def points2 (env : GoEnv) (r : Receipt) : Int :=
  if F64.eq (ParseFloat env r.Total) (F64.floor (ParseFloat env r.Total)) then 50 else 0

/-- What rule 3 adds: 25 or 0. -/
def points3 (env : GoEnv) (r : Receipt) : Int :=
  if Int.tmod (F64.toInt env (F64.mul (ParseFloat env r.Total) (F64.ofNat 100))) 25 = 0 then 25
  else 0

/-- What rule 4 adds: 5 for every two items. -/
def points4 (r : Receipt) : Int := ((r.Items.length / 2 : Nat) : Int) * 5

/-- What rule 5 adds for one item: `int(math.Ceil(price * 0.2))` when the byte
length of the trimmed description is a multiple of 3 (zero included), else 0. -/
def itemPoints (env : GoEnv) (item : Item) : Int :=
  if byteLen (TrimSpace item.ShortDescription.data) % 3 = 0 then
    F64.toInt env (F64.ceil (F64.mul (ParseFloat env item.Price) F64.fifth))
  else 0

/-- What rule 5 adds: the sum over the items. -/
def points5 (env : GoEnv) (r : Receipt) : Int := (r.Items.map (itemPoints env)).sum

/-- What rule 7 adds: 6 or 0. -/
def points7 (r : Receipt) : Int :=
  if ((parseDate r.PurchaseDate).getD Time.zero).Day % 2 ≠ 0 then 6 else 0

/-- What rule 8 adds: 10 or 0. -/
def points8 (r : Receipt) : Int :=
  if ((parseClock r.PurchaseTime).getD Time.zero).Hour = 14 then 10 else 0

/-! ## The validator in the words of the specification -/

/-- An ASCII digit, `0` to `9`. -/
def AsciiDigit (c : Char) : Prop := '0' ≤ c ∧ c ≤ '9'

/-- An ASCII letter, `a` to `z` or `A` to `Z`. -/
def AsciiLetter (c : Char) : Prop := ('a' ≤ c ∧ c ≤ 'z') ∨ ('A' ≤ c ∧ c ≤ 'Z')

/-- Four digits, a dash, two digits, a dash, two digits. -/
def DateShape (s : String) : Prop :=
  ∃ y1 y2 y3 y4 m1 m2 d1 d2 : Char,
    AsciiDigit y1 ∧ AsciiDigit y2 ∧ AsciiDigit y3 ∧ AsciiDigit y4 ∧
    AsciiDigit m1 ∧ AsciiDigit m2 ∧ AsciiDigit d1 ∧ AsciiDigit d2 ∧
    s.data = [y1, y2, y3, y4, '-', m1, m2, '-', d1, d2]

/-- Two digits, a colon, two digits. -/
def TimeShape (s : String) : Prop :=
  ∃ h1 h2 m1 m2 : Char,
    AsciiDigit h1 ∧ AsciiDigit h2 ∧ AsciiDigit m1 ∧ AsciiDigit m2 ∧
    s.data = [h1, h2, ':', m1, m2]

/-- One or more digits, a decimal point, exactly two digits. -/
def DecimalShape (s : String) : Prop :=
  ∃ (ds : List Char) (a b : Char),
    ds ≠ [] ∧ (∀ c ∈ ds, AsciiDigit c) ∧ AsciiDigit a ∧ AsciiDigit b ∧
    s.data = ds ++ ['.', a, b]

/-- The character class the retailer rule is claimed to allow: letters,
digits, whitespace, hyphen, ampersand. -/
def ClaimedRetailerChar (c : Char) : Prop :=
  AsciiLetter c ∨ AsciiDigit c ∨ c.isWhitespace = true ∨ c = '-' ∨ c = '&'

/-- The character class the retailer pattern allows: ASCII letters and digits,
the underscore, tab, line feed, form feed, carriage return, space, hyphen and
ampersand. -/
def AllowedRetailerChar (c : Char) : Prop :=
  AsciiLetter c ∨ AsciiDigit c ∨ c = '_' ∨ c = Char.ofNat 9 ∨ c = Char.ofNat 10 ∨
  c = Char.ofNat 12 ∨ c = Char.ofNat 13 ∨ c = ' ' ∨ c = '-' ∨ c = '&'

/-- The retailer message of the error list, if any. -/
def specRetailerErrors (r : Receipt) : List String :=
  if r.Retailer = "" then ["Retailer is required."]
  else if retailerPattern r.Retailer then []
  else ["Retailer contains invalid characters."]

/-- The purchase-date message of the error list, if any. -/
def specDateErrors (r : Receipt) : List String :=
  if r.PurchaseDate = "" then ["PurchaseDate is required."]
  else if datePattern r.PurchaseDate then []
  else ["PurchaseDate must be in YYYY-MM-DD format."]

/-- The purchase-time message of the error list, if any. -/
def specTimeErrors (r : Receipt) : List String :=
  if r.PurchaseTime = "" then ["PurchaseTime is required."]
  else if timePattern r.PurchaseTime then []
  else ["PurchaseTime must be in HH:MM format."]

/-- The total message of the error list, if any. -/
def specTotalErrors (r : Receipt) : List String :=
  if r.Total = "" then ["Total is required."]
  else if totalPattern r.Total then []
  else ["Total must be a decimal value with two decimal places."]

/-- The messages of the item with 1-based index `k`: the description message,
then the price message. -/
def specItemErrors (k : Nat) (item : Item) : List String :=
  (if item.ShortDescription = "" then
      ["Item " ++ Itoa k ++ " is missing a ShortDescription."]
    else []) ++
  (if item.Price = "" then ["Item " ++ Itoa k ++ " is missing a Price."]
    else if pricePattern item.Price then []
    else ["Item " ++ Itoa k ++ " Price must be a decimal value with two decimal places."])

/-- The item part of the error list: one message when there is no item,
otherwise the messages of the items in sequence order. -/
def specItemsErrors (items : List Item) : List String :=
  match items with
  | [] => ["At least one item is required."]
  | _ :: _ => ((items.enumFrom 1).map (fun p => specItemErrors p.1 p.2)).flatten

/-- The error list as the specification orders it: retailer, purchase date,
purchase time, total, items. -/
def specErrors (r : Receipt) : List String :=
  specRetailerErrors r ++ specDateErrors r ++ specTimeErrors r ++ specTotalErrors r ++
    specItemsErrors r.Items

/-! ## Calendar dates in the words of the specification -/

/-- The number the decimal digit `c` stands for. -/
def charDigit (c : Char) : Nat := c.toNat - '0'.toNat

/-- A leap year of the Gregorian calendar. -/
def leapYear (y : Nat) : Bool := decide ((y % 4 = 0 ∧ y % 100 ≠ 0) ∨ y % 400 = 0)

/-- The number of days of month `m` (1 to 12) of year `y`. -/
def daysOfMonth (y m : Nat) : Nat :=
  match m with
  | 1 => 31
  | 2 => if leapYear y then 29 else 28
  | 3 => 31
  | 4 => 30
  | 5 => 31
  | 6 => 30
  | 7 => 31
  | 8 => 31
  | 9 => 30
  | 10 => 31
  | 11 => 30
  | 12 => 31
  | _ => 0

/-- Year, month and day name a day of the calendar. -/
def RealDate (y m d : Nat) : Prop := 1 ≤ m ∧ m ≤ 12 ∧ 1 ≤ d ∧ d ≤ daysOfMonth y m

/-- The first rune of a string, if any. -/
def firstChar (s : String) : Option Char := s.data.head?

/-- The receipt of `TestCalculatePoints_RoundDollarAmount` (points_test.go): only
the retailer and the total are set. -/
def roundDollarReceipt : Receipt :=
  { Retailer := "Test Retailer", PurchaseDate := "", PurchaseTime := "", Total := "10.00",
    Items := [] }

/-! ## The handlers (handlers.go) -/

/-- The function `strings.Split(s, "/")` on the runes of `s`: the pieces between
the slashes, one more than there are slashes. -/
def splitSlash : List Char → List (List Char)
  | [] => [[]]
  | c :: cs =>
    if c.toNat == 47 then [] :: splitSlash cs
    else
      match splitSlash cs with
      | seg :: rest => (c :: seg) :: rest
      | [] => [[c]]

/-- What `GetPointsHandler` does with a request. -/
inductive GetPointsResult where
  /-- Status 400, "Invalid URL format. Use /receipts/{id}/points."; the store is not read. -/
  | badRequest
  /-- The call `Store.GetPoints(id)` found nothing: status 404, "Receipt not found.". -/
  | notFound (id : String)
  /-- The call `Store.GetPoints(id)` found `points`: status 200 with the points as JSON. -/
  | ok (id : String) (points : Int)
  /-- A run-time panic: an index expression on `pathParts` is out of range. -/
  | indexOutOfRange
  deriving DecidableEq

/-- The function `GetPointsHandler` on the path of the request URL and the
store: the condition `len(pathParts) < 3 || pathParts[1] != "receipts" ||
pathParts[3] != "points"` is evaluated from left to right, and an index beyond
the length of the slice panics. -/
def GetPointsHandler (store : InMemoryStorage) (path : String) : GetPointsResult :=
  let pathParts := (splitSlash path.data).map String.mk
  if pathParts.length < 3 then .badRequest
  else
    match pathParts[1]? with
    | none => .indexOutOfRange
    | some part1 =>
      if part1 ≠ "receipts" then .badRequest
      else
        match pathParts[3]? with
        | none => .indexOutOfRange
        | some part3 =>
          if part3 ≠ "points" then .badRequest
          else
            match pathParts[2]? with
            | none => .indexOutOfRange
            | some id =>
              match store.GetPoints id with
              | (points, true) => .ok id points
              | (_, false) => .notFound id

/-- What `ProcessReceiptHandler` answers. -/
inductive ProcessResult where
  /-- The body did not decode: status 400, "Invalid receipt format. Please verify input.". -/
  | decodeError
  /-- Status 400 with the message "Validation Failed" and the error list. -/
  | validationFailed (errors : List String)
  /-- Status 200 with the generated id. -/
  | created (id : String)
  deriving DecidableEq

/-- The function `ProcessReceiptHandler` on the store: `body` is the receipt
`json.NewDecoder(r.Body).Decode` yields (`none` when it returns an error) and
`newId` the string `uuid.New().String()` returns; the result is the store after
the call and the answer. -/
def ProcessReceiptHandler (env : GoEnv) (store : InMemoryStorage) (body : Option Receipt)
    (newId : String) : InMemoryStorage × ProcessResult :=
  match body with
  | none => (store, .decodeError)
  | some receipt =>
    let (valid, validationErrors) := validateReceipt receipt
    if !valid then (store, .validationFailed validationErrors)
    else
      let id := newId
      let points := CalculatePoints env receipt
      (store.SaveReceipt id receipt points, .created id)

/-- The store after a sequence of submissions, each a decoded body and the id
generated for it. -/
def runSubmits (env : GoEnv) (store : InMemoryStorage)
    (requests : List (Option Receipt × String)) : InMemoryStorage :=
  requests.foldl (fun st q => (ProcessReceiptHandler env st q.1 q.2).1) store

/-- Every receipt in the store passed validation and is stored with the points
`CalculatePoints` gives it. -/
def StoredValid (env : GoEnv) (s : InMemoryStorage) : Prop :=
  ∀ (k : String) (r : Receipt), s.receipts k = some r →
    (validateReceipt r).1 = true ∧ s.points k = some (CalculatePoints env r)

/-- The string `s` writes the whole-dollar amount `n`: one or more digits that
write `n`, then `.00`. -/
def WholeDollar (s : String) (n : Nat) : Prop :=
  ∃ ds : List Char, ds ≠ [] ∧ (∀ c ∈ ds, AsciiDigit c) ∧ digitsValue ds = n ∧
    s.data = ds ++ ['.', '0', '0']

/-- The float `f` is finite and its integer part fits a 64-bit `int`, so that
`int(f)` is defined by the language. -/
def F64.fitsInt (f : F64) : Bool :=
  match f with
  | .fin m e =>
    let t : Int := if 0 ≤ e then m * 2 ^ e.toNat else Int.tdiv m (2 ^ (-e).toNat)
    decide (-9223372036854775808 ≤ t ∧ t < 9223372036854775808)
  | _ => false

/-- The float `f` is zero, a positive number or plus infinity. -/
def F64.NonNeg (f : F64) : Prop :=
  match f with
  | .fin m _ => 0 ≤ m
  | .inf neg => neg = false
  | .nan => False

/-- The receipt of the overflow example: the test receipt with two items whose
description has three bytes and whose price is thirty quintillion. -/
def overflowReceipt : Receipt :=
  { targetReceipt with
    Items := [{ ShortDescription := "abc", Price := "30000000000000000000.00" },
              { ShortDescription := "abc", Price := "30000000000000000000.00" }] }

/-- The receipt of `TestCalculatePoints_ItemDescriptionMultipleOf3`
(points_test.go): retailer, total and one item "abc" at "5.00". -/
def multipleOf3Receipt : Receipt :=
  { Retailer := "Test Retailer", PurchaseDate := "", PurchaseTime := "", Total := "10.00",
    Items := [{ ShortDescription := "abc", Price := "5.00" }] }

/-- Two items whose descriptions have three bytes: what rule 5 adds for them,
9223372036854774784 and 1000, is 23 short of `2^63`. -/
def nearMaxItems : List Item :=
  [{ ShortDescription := "abc", Price := "46116860184273870000.00" },
   { ShortDescription := "abc", Price := "5000.00" }]

/-- The receipt of the handler test with the items `nearMaxItems`. -/
def nearMaxReceipt : Receipt := { targetReceipt with Items := nearMaxItems }

/-! ## Theorems: characters and patterns -/

theorem isDigit_iff (c : Char) : isDigit c = true ↔ AsciiDigit c := by
  simp only [isDigit, AsciiDigit, Bool.and_eq_true, decide_eq_true_eq]
  exact Iff.rfl

theorem isAsciiLetter_iff (c : Char) : isAsciiLetter c = true ↔ AsciiLetter c := by
  simp only [isAsciiLetter, AsciiLetter, Bool.and_eq_true, Bool.or_eq_true, decide_eq_true_eq]
  constructor
  · rintro (h | h)
    · exact Or.inr h
    · exact Or.inl h
  · rintro (h | h)
    · exact Or.inr h
    · exact Or.inl h

theorem toNat_beq_iff (c : Char) (n : Nat) (hn : (Char.ofNat n).toNat = n) :
    (c.toNat == n) = true ↔ c = Char.ofNat n := by
  constructor
  · intro h
    have h2 : c.toNat = n := by simpa using h
    rw [← h2, Char.ofNat_toNat]
  · rintro rfl
    simp [hn]

theorem str_empty_iff (s : String) : s = "" ↔ s.data = [] := by
  constructor
  · rintro rfl; rfl
  · intro h; exact String.ext h

theorem isRetailerChar_iff (c : Char) : isRetailerChar c = true ↔ AllowedRetailerChar c := by
  simp only [isRetailerChar, isWord, isAlnum, isReSpace, AllowedRetailerChar, Bool.or_eq_true,
    isDigit_iff, isAsciiLetter_iff, toNat_beq_iff c 95 rfl, toNat_beq_iff c 9 rfl,
    toNat_beq_iff c 10 rfl, toNat_beq_iff c 12 rfl, toNat_beq_iff c 13 rfl,
    toNat_beq_iff c 32 rfl, toNat_beq_iff c 45 rfl, toNat_beq_iff c 38 rfl]
  tauto

theorem retailerPattern_iff (s : String) :
    retailerPattern s = true ↔ s ≠ "" ∧ ∀ c ∈ s.data, AllowedRetailerChar c := by
  simp only [retailerPattern, Bool.and_eq_true, Bool.not_eq_true', List.isEmpty_eq_false,
    List.all_eq_true, isRetailerChar_iff, ne_eq, str_empty_iff]

theorem dash_iff (c : Char) : (c.toNat == 45) = true ↔ c = '-' := toNat_beq_iff c 45 rfl
theorem colon_iff (c : Char) : (c.toNat == 58) = true ↔ c = ':' := toNat_beq_iff c 58 rfl
theorem point_iff (c : Char) : (c.toNat == 46) = true ↔ c = '.' := toNat_beq_iff c 46 rfl

theorem datePattern_iff (s : String) : datePattern s = true ↔ DateShape s := by
  unfold datePattern DateShape
  split
  · next y1 y2 y3 y4 p m1 m2 q d1 d2 h =>
    simp only [Bool.and_eq_true, isDigit_iff, dash_iff, h]
    constructor
    · rintro ⟨⟨⟨⟨⟨⟨⟨⟨⟨a1, a2⟩, a3⟩, a4⟩, rfl⟩, a5⟩, a6⟩, rfl⟩, a7⟩, a8⟩
      exact ⟨y1, y2, y3, y4, m1, m2, d1, d2, a1, a2, a3, a4, a5, a6, a7, a8, rfl⟩
    · rintro ⟨z1, z2, z3, z4, n1, n2, e1, e2, a1, a2, a3, a4, a5, a6, a7, a8, heq⟩
      simp only [List.cons.injEq, and_true] at heq
      obtain ⟨rfl, rfl, rfl, rfl, rfl, rfl, rfl, rfl, rfl, rfl⟩ := heq
      exact ⟨⟨⟨⟨⟨⟨⟨⟨⟨a1, a2⟩, a3⟩, a4⟩, rfl⟩, a5⟩, a6⟩, rfl⟩, a7⟩, a8⟩
  · next hno =>
    constructor
    · intro h; exact absurd h (by simp)
    · rintro ⟨z1, z2, z3, z4, n1, n2, e1, e2, -, -, -, -, -, -, -, -, heq⟩
      exact absurd heq (hno _ _ _ _ _ _ _ _ _ _)

theorem timePattern_iff (s : String) : timePattern s = true ↔ TimeShape s := by
  unfold timePattern TimeShape
  split
  · next h1 h2 p m1 m2 h =>
    simp only [Bool.and_eq_true, isDigit_iff, colon_iff, h]
    constructor
    · rintro ⟨⟨⟨⟨a1, a2⟩, rfl⟩, a3⟩, a4⟩
      exact ⟨h1, h2, m1, m2, a1, a2, a3, a4, rfl⟩
    · rintro ⟨z1, z2, n1, n2, a1, a2, a3, a4, heq⟩
      simp only [List.cons.injEq, and_true] at heq
      obtain ⟨rfl, rfl, rfl, rfl, rfl⟩ := heq
      exact ⟨⟨⟨⟨a1, a2⟩, rfl⟩, a3⟩, a4⟩
  · next hno =>
    constructor
    · intro h; exact absurd h (by simp)
    · rintro ⟨z1, z2, n1, n2, -, -, -, -, heq⟩
      exact absurd heq (hno _ _ _ _ _)

theorem point_not_digit : isDigit '.' = false := by decide

theorem takeWhile_digits_append (ds rest : List Char) (h : ∀ c ∈ ds, isDigit c = true) :
    (ds ++ rest).takeWhile isDigit = ds ++ rest.takeWhile isDigit := by
  induction ds with
  | nil => rfl
  | cons d ds ih =>
    have hd : isDigit d = true := h d (by simp)
    simp [List.takeWhile_cons, hd, ih (fun c hc => h c (by simp [hc]))]

theorem dropWhile_digits_append (ds rest : List Char) (h : ∀ c ∈ ds, isDigit c = true) :
    (ds ++ rest).dropWhile isDigit = rest.dropWhile isDigit := by
  induction ds with
  | nil => rfl
  | cons d ds ih =>
    have hd : isDigit d = true := h d (by simp)
    simp [List.dropWhile_cons, hd, ih (fun c hc => h c (by simp [hc]))]

theorem decimalPattern_iff (s : String) : decimalPattern s.data = true ↔ DecimalShape s := by
  unfold decimalPattern DecimalShape
  constructor
  · intro h
    simp only [Bool.and_eq_true, Bool.not_eq_true', List.isEmpty_eq_false] at h
    obtain ⟨hne, hm⟩ := h
    split at hm
    · next p a b hdrop =>
      simp only [Bool.and_eq_true, isDigit_iff, point_iff] at hm
      obtain ⟨⟨rfl, ha⟩, hb⟩ := hm
      refine ⟨s.data.takeWhile isDigit, a, b, hne, ?_, ha, hb, ?_⟩
      · intro c hc
        exact (isDigit_iff c).1 (List.mem_takeWhile_imp hc)
      · rw [← hdrop, List.takeWhile_append_dropWhile]
    · exact absurd hm (by simp)
  · rintro ⟨ds, a, b, hne, hds, ha, hb, heq⟩
    have hds2 : ∀ c ∈ ds, isDigit c = true := fun c hc => (isDigit_iff c).2 (hds c hc)
    rw [heq, takeWhile_digits_append ds _ hds2, dropWhile_digits_append ds _ hds2]
    simp [List.takeWhile_cons, List.dropWhile_cons, point_not_digit, hne, (isDigit_iff a).2 ha,
      (isDigit_iff b).2 hb]

/-! ## Theorems: the error list of the validator -/

theorem validateItems_eq (items : List Item) (i : Nat) (errors : List String) :
    validateItems items i errors =
      errors ++ ((items.enumFrom (i + 1)).map (fun p => specItemErrors p.1 p.2)).flatten := by
  induction items generalizing i errors with
  | nil => simp [validateItems]
  | cons item rest ih =>
    simp only [validateItems, ih, List.enumFrom_cons, List.map_cons, List.flatten_cons,
      specItemErrors]
    split_ifs <;> simp_all

theorem append_check (c : Prop) [Decidable c] (b : Bool) (m1 m2 : String) (errors : List String) :
    (if c then errors ++ [m1] else if (!b) = true then errors ++ [m2] else errors) =
      errors ++ (if c then [m1] else if b = true then [] else [m2]) := by
  by_cases hc : c <;> cases b <;> simp [hc]

theorem nil_check (c : Prop) [Decidable c] (b : Bool) (m1 m2 : String) :
    (if c then [m1] else if (!b) = true then [m2] else ([] : List String)) =
      (if c then [m1] else if b = true then [] else [m2]) := by
  by_cases hc : c <;> cases b <;> simp [hc]

theorem validateReceipt_errors (r : Receipt) : (validateReceipt r).2 = specErrors r := by
  unfold validateReceipt specErrors specRetailerErrors specDateErrors specTimeErrors
    specTotalErrors
  simp only [append_check, List.nil_append, nil_check]
  cases hitems : r.Items with
  | nil =>
    rw [if_pos (show ([] : List Item).length = 0 from rfl)]
    simp only [specItemsErrors]
  | cons item rest =>
    rw [if_neg (show ¬ (item :: rest).length = 0 from by simp)]
    simp only [specItemsErrors, validateItems_eq, Nat.zero_add]

theorem validateReceipt_ok (r : Receipt) : (validateReceipt r).1 = true ↔ specErrors r = [] := by
  rw [← validateReceipt_errors]
  simp [validateReceipt]

theorem firstChar_item (k : Nat) (t : String) : firstChar ("Item " ++ Itoa k ++ t) = some 'I' := by
  simp only [firstChar, String.data_append]
  rfl

theorem firstChar_specItemErrors (k : Nat) (item : Item) (m : String)
    (h : m ∈ specItemErrors k item) : firstChar m = some 'I' := by
  unfold specItemErrors at h
  rw [List.mem_append] at h
  rcases h with h | h
  · split_ifs at h
    · rw [List.mem_singleton] at h; rw [h]; exact firstChar_item _ _
    · simp at h
  · split_ifs at h
    · rw [List.mem_singleton] at h; rw [h]; exact firstChar_item _ _
    · simp at h
    · rw [List.mem_singleton] at h; rw [h]; exact firstChar_item _ _

theorem firstChar_specItemsErrors (items : List Item) (m : String)
    (h : m ∈ specItemsErrors items) : firstChar m = some 'I' ∨ firstChar m = some 'A' := by
  unfold specItemsErrors at h
  split at h
  · rw [List.mem_singleton] at h; rw [h]; exact Or.inr rfl
  · rw [List.mem_flatten] at h
    obtain ⟨l, hl, hm⟩ := h
    rw [List.mem_map] at hl
    obtain ⟨p, -, rfl⟩ := hl
    exact Or.inl (firstChar_specItemErrors _ _ _ hm)

theorem firstChar_other_errors (r : Receipt) (m : String)
    (h : m ∈ specDateErrors r ++ specTimeErrors r ++ specTotalErrors r ++ specItemsErrors r.Items) :
    firstChar m ≠ some 'R' := by
  simp only [List.mem_append] at h
  rcases h with ((h | h) | h) | h
  · unfold specDateErrors at h
    split_ifs at h <;> simp at h <;> (rw [h]; decide)
  · unfold specTimeErrors at h
    split_ifs at h <;> simp at h <;> (rw [h]; decide)
  · unfold specTotalErrors at h
    split_ifs at h <;> simp at h <;> (rw [h]; decide)
  · rcases firstChar_specItemsErrors _ _ h with h | h <;> (rw [h]; decide)

theorem mem_specErrors_retailer (r : Receipt) (m : String) (hm : firstChar m = some 'R') :
    m ∈ specErrors r ↔ m ∈ specRetailerErrors r := by
  unfold specErrors
  simp only [List.append_assoc]
  rw [List.mem_append]
  constructor
  · rintro (h | h)
    · exact h
    · have := firstChar_other_errors r m (by simpa only [List.append_assoc] using h)
      exact absurd hm this
  · intro h; exact Or.inl h

theorem specRetailerErrors_nil_iff (r : Receipt) :
    specRetailerErrors r = [] ↔ r.Retailer ≠ "" ∧ retailerPattern r.Retailer = true := by
  unfold specRetailerErrors
  split_ifs <;> simp_all

theorem retailerPattern_empty : retailerPattern "" = false := by decide

/-- C4 (as the code has it): `validateReceipt` reports no retailer error exactly
when the retailer is non-empty and each of its characters is an ASCII letter, an
ASCII digit, an underscore, a tab, line feed, form feed, carriage return or
space, a hyphen or an ampersand; any other character in a non-empty retailer
puts "Retailer contains invalid characters." into the error list. -/
theorem retailer_error_iff (r : Receipt) :
    (("Retailer is required." ∉ (validateReceipt r).2 ∧
        "Retailer contains invalid characters." ∉ (validateReceipt r).2) ↔
      (r.Retailer ≠ "" ∧ ∀ c ∈ r.Retailer.data, AllowedRetailerChar c)) ∧
    (r.Retailer ≠ "" → (∃ c ∈ r.Retailer.data, ¬ AllowedRetailerChar c) →
      "Retailer contains invalid characters." ∈ (validateReceipt r).2) := by
  rw [validateReceipt_errors, mem_specErrors_retailer r "Retailer is required." rfl,
    mem_specErrors_retailer r "Retailer contains invalid characters." rfl, ← retailerPattern_iff]
  unfold specRetailerErrors
  constructor
  · split_ifs <;> simp_all [retailerPattern_empty]
  · intro hne hex
    have hpat : ¬ retailerPattern r.Retailer = true := by
      rw [retailerPattern_iff]
      rintro ⟨-, hall⟩
      obtain ⟨c, hc, hbad⟩ := hex
      exact hbad (hall c hc)
    simp [hne, hpat]

/-- C4, the claim as stated fails: the underscore is no letter, digit,
whitespace character, hyphen or ampersand, yet the retailer "A_B" draws no
error at all. -/
theorem retailer_underscore_accepted :
    ¬ ClaimedRetailerChar '_' ∧
    validateReceipt { targetReceipt with Retailer := "A_B" } = (true, []) := by
  refine ⟨?_, by decide⟩
  unfold ClaimedRetailerChar AsciiLetter AsciiDigit
  decide

theorem datePattern_empty : datePattern "" = false := by decide
theorem timePattern_empty : timePattern "" = false := by decide
theorem decimalPattern_empty : decimalPattern [] = false := by decide

theorem specDateErrors_nil_iff (r : Receipt) :
    specDateErrors r = [] ↔ DateShape r.PurchaseDate := by
  rw [← datePattern_iff]
  unfold specDateErrors
  split_ifs <;> simp_all [datePattern_empty]

theorem specTimeErrors_nil_iff (r : Receipt) :
    specTimeErrors r = [] ↔ TimeShape r.PurchaseTime := by
  rw [← timePattern_iff]
  unfold specTimeErrors
  split_ifs <;> simp_all [timePattern_empty]

theorem specTotalErrors_nil_iff (r : Receipt) :
    specTotalErrors r = [] ↔ DecimalShape r.Total := by
  rw [← decimalPattern_iff]
  unfold specTotalErrors totalPattern
  split_ifs <;> simp_all [decimalPattern_empty]

theorem specItemErrors_nil_iff (k : Nat) (item : Item) :
    specItemErrors k item = [] ↔ item.ShortDescription ≠ "" ∧ DecimalShape item.Price := by
  rw [← decimalPattern_iff]
  unfold specItemErrors pricePattern
  split_ifs <;> simp_all [decimalPattern_empty]

theorem enumFrom_all_nil_iff (items : List Item) (n : Nat) :
    (∀ l ∈ (items.enumFrom n).map (fun p => specItemErrors p.1 p.2), l = []) ↔
      ∀ item ∈ items, item.ShortDescription ≠ "" ∧ DecimalShape item.Price := by
  induction items generalizing n with
  | nil => simp
  | cons item rest ih =>
    simp only [List.enumFrom_cons, List.map_cons, List.mem_cons, forall_eq_or_imp, ih,
      specItemErrors_nil_iff]

theorem specItemsErrors_nil_iff (items : List Item) :
    specItemsErrors items = [] ↔
      items ≠ [] ∧ ∀ item ∈ items, item.ShortDescription ≠ "" ∧ DecimalShape item.Price := by
  unfold specItemsErrors
  split
  · simp
  · next item rest =>
    rw [List.flatten_eq_nil_iff, enumFrom_all_nil_iff]
    simp

theorem retailerPattern_of_plain (s : String) (hne : s ≠ "")
    (hchars : ∀ c ∈ s.data, AsciiLetter c ∨ AsciiDigit c ∨ c = ' ') :
    retailerPattern s = true := by
  rw [retailerPattern_iff]
  refine ⟨hne, fun c hc => ?_⟩
  unfold AllowedRetailerChar
  rcases hchars c hc with h | h | h
  · exact Or.inl h
  · exact Or.inr (Or.inl h)
  · simp [h]

/-- C5: for a receipt whose retailer is a non-empty string of ASCII letters,
digits and spaces, `validateReceipt` returns `ok = true` exactly when the
purchase date is four digits, `-`, two digits, `-`, two digits, the purchase
time is two digits, `:`, two digits, the total is one or more digits, a point
and two digits, there is at least one item, and every item has a non-empty
short description and a price of that digits-point-two-digits shape. The digit
values are not range-checked: the date "2022-13-45" with the time "99:99" is
accepted. -/
theorem validate_ok_iff_shapes (r : Receipt) (hne : r.Retailer ≠ "")
    (hchars : ∀ c ∈ r.Retailer.data, AsciiLetter c ∨ AsciiDigit c ∨ c = ' ') :
    ((validateReceipt r).1 = true ↔
      DateShape r.PurchaseDate ∧ TimeShape r.PurchaseTime ∧ DecimalShape r.Total ∧
      r.Items ≠ [] ∧
      ∀ item ∈ r.Items, item.ShortDescription ≠ "" ∧ DecimalShape item.Price) ∧
    validateReceipt { targetReceipt with PurchaseDate := "2022-13-45", PurchaseTime := "99:99" }
      = (true, []) := by
  refine ⟨?_, by decide⟩
  have hret : specRetailerErrors r = [] :=
    (specRetailerErrors_nil_iff r).2 ⟨hne, retailerPattern_of_plain _ hne hchars⟩
  rw [validateReceipt_ok, specErrors, hret]
  simp only [List.nil_append, List.append_eq_nil, specDateErrors_nil_iff, specTimeErrors_nil_iff,
    specTotalErrors_nil_iff, specItemsErrors_nil_iff, and_assoc]

/-- C5 at the receipt of the handler test: the retailer "Target" is made of
ASCII letters, so the theorem applies, and the receipt is accepted. -/
theorem validate_ok_iff_shapes_witness :
    targetReceipt.Retailer ≠ "" ∧
    ((validateReceipt targetReceipt).1 = true ↔
      DateShape targetReceipt.PurchaseDate ∧ TimeShape targetReceipt.PurchaseTime ∧
      DecimalShape targetReceipt.Total ∧ targetReceipt.Items ≠ [] ∧
      ∀ item ∈ targetReceipt.Items, item.ShortDescription ≠ "" ∧ DecimalShape item.Price) :=
  ⟨by decide, (validate_ok_iff_shapes targetReceipt (by decide) (by
    unfold AsciiLetter AsciiDigit
    decide)).1⟩

/-- C6: `validateReceipt` collects every violation: its error list is the
retailer message (at most one), then the purchase-date message (at most one),
the purchase-time message (at most one), the total message (at most one), and
then either "At least one item is required." or, item by item with the 1-based
index, the description message followed by the price message; `ok` is false
exactly when that list is non-empty. Hence an empty retailer always fails with
"Retailer is required." as the first error, and with no items as well the list
also holds "At least one item is required.". -/
theorem validate_collects_all_errors (r : Receipt) :
    (validateReceipt r).2 = specErrors r ∧
    ((validateReceipt r).1 = false ↔ (validateReceipt r).2 ≠ []) ∧
    ((specRetailerErrors r).length ≤ 1 ∧ (specDateErrors r).length ≤ 1 ∧
      (specTimeErrors r).length ≤ 1 ∧ (specTotalErrors r).length ≤ 1) ∧
    (r.Retailer = "" →
      (validateReceipt r).1 = false ∧
      (validateReceipt r).2.head? = some "Retailer is required.") ∧
    (r.Retailer = "" → r.Items = [] →
      "Retailer is required." ∈ (validateReceipt r).2 ∧
      "At least one item is required." ∈ (validateReceipt r).2) := by
  have hbool : (validateReceipt r).1 = false ↔ (validateReceipt r).2 ≠ [] := by
    simp [validateReceipt]
  have hhead : r.Retailer = "" → (validateReceipt r).2.head? = some "Retailer is required." := by
    intro h
    rw [validateReceipt_errors]
    simp [specErrors, specRetailerErrors, h]
  refine ⟨validateReceipt_errors r, hbool, ⟨?_, ?_, ?_, ?_⟩, ?_, ?_⟩
  · unfold specRetailerErrors; split_ifs <;> simp
  · unfold specDateErrors; split_ifs <;> simp
  · unfold specTimeErrors; split_ifs <;> simp
  · unfold specTotalErrors; split_ifs <;> simp
  · intro h
    refine ⟨hbool.2 ?_, hhead h⟩
    intro hnil
    have := hhead h
    rw [hnil] at this
    simp at this
  · intro h hitems
    rw [validateReceipt_errors]
    simp [specErrors, specRetailerErrors, specItemsErrors, h, hitems]

/-! ## Theorems: the running total of `CalculatePoints` -/

theorem wrap64_add_left (a b : Int) : wrap64 (wrap64 a + b) = wrap64 (a + b) := by
  unfold wrap64
  omega

theorem wrap64_add_right (a b : Int) : wrap64 (a + wrap64 b) = wrap64 (a + b) := by
  unfold wrap64
  omega

theorem wrap64_wrap64 (a : Int) : wrap64 (wrap64 a) = wrap64 a := by
  unfold wrap64
  omega

theorem wrap64_of_inRange (a : Int) (h1 : -9223372036854775808 ≤ a)
    (h2 : a < 9223372036854775808) : wrap64 a = a := by
  unfold wrap64
  omega

theorem wrap64_inRange (a : Int) :
    -9223372036854775808 ≤ wrap64 a ∧ wrap64 a < 9223372036854775808 := by
  unfold wrap64
  omega

theorem rule1_wrap (r : Receipt) (x : Int) :
    rule1 r (wrap64 x) = wrap64 (x + (countAlnum r.Retailer : Int)) := by
  simp only [rule1, wrap64_add_left]

theorem rule2_wrap (env : GoEnv) (r : Receipt) (x : Int) :
    rule2 env r (wrap64 x) = wrap64 (x + points2 env r) := by
  unfold rule2 points2
  split_ifs <;> simp_all [wrap64_add_left]

theorem rule3_wrap (env : GoEnv) (r : Receipt) (x : Int) :
    rule3 env r (wrap64 x) = wrap64 (x + points3 env r) := by
  unfold rule3 points3
  split_ifs <;> simp_all [wrap64_add_left]

theorem rule4_wrap (r : Receipt) (x : Int) :
    rule4 r (wrap64 x) = wrap64 (x + points4 r) := by
  simp only [rule4, points4, wrap64_add_left, wrap64_add_right]

theorem rule5Item_wrap (env : GoEnv) (item : Item) (x : Int) :
    rule5Item env (wrap64 x) item = wrap64 (x + itemPoints env item) := by
  unfold rule5Item itemPoints
  split_ifs <;> simp_all [wrap64_add_left]

theorem foldl_rule5Item_wrap (env : GoEnv) (items : List Item) (x : Int) :
    items.foldl (rule5Item env) (wrap64 x) = wrap64 (x + (items.map (itemPoints env)).sum) := by
  induction items generalizing x with
  | nil => simp
  | cons item rest ih =>
    simp only [List.foldl_cons, rule5Item_wrap, ih, List.map_cons, List.sum_cons, add_assoc]

theorem rule5_wrap (env : GoEnv) (r : Receipt) (x : Int) :
    rule5 env r (wrap64 x) = wrap64 (x + points5 env r) :=
  foldl_rule5Item_wrap env r.Items x

theorem rule7_wrap (r : Receipt) (x : Int) :
    rule7 r (wrap64 x) = wrap64 (x + points7 r) := by
  unfold rule7 points7
  split_ifs <;> simp_all [wrap64_add_left]

theorem rule8_wrap (r : Receipt) (x : Int) :
    rule8 r (wrap64 x) = wrap64 (x + points8 r) := by
  unfold rule8 points8
  split_ifs <;> simp_all [wrap64_add_left]

theorem calculatePoints_eq (env : GoEnv) (r : Receipt) :
    CalculatePoints env r =
      wrap64 ((countAlnum r.Retailer : Int) + points2 env r + points3 env r + points4 r +
        points5 env r + points7 r + points8 r) := by
  have h0 : rule1 r 0 = wrap64 (0 + (countAlnum r.Retailer : Int)) := by
    simp [rule1]
  simp only [CalculatePoints, h0, rule2_wrap, rule3_wrap, rule4_wrap, rule5_wrap, rule7_wrap,
    rule8_wrap, zero_add]

/-- C7 (as the code has it): the retailer adds to `CalculatePoints` the number
of its ASCII letters and digits, in the 64-bit arithmetic of Go's `int`. For
two receipts that differ only in the retailer, the points of the one are the
points of the other plus the difference of the two counts modulo `2^64`;
whenever that sum lies within the range of `int` (no overflow) the difference
of the points is the difference of the counts.
Spaces, `&`, `-`, `_` and non-ASCII letters count zero. -/
theorem retailer_adds_alnum_count (env : GoEnv) (r : Receipt) (a b : String) :
    CalculatePoints env { r with Retailer := a } =
      wrap64 (CalculatePoints env { r with Retailer := b } +
        ((countAlnum a : Int) - (countAlnum b : Int))) ∧
    ((-9223372036854775808 ≤ CalculatePoints env { r with Retailer := b } +
          ((countAlnum a : Int) - (countAlnum b : Int)) ∧
        CalculatePoints env { r with Retailer := b } +
          ((countAlnum a : Int) - (countAlnum b : Int)) < 9223372036854775808) →
      CalculatePoints env { r with Retailer := a } - CalculatePoints env { r with Retailer := b } =
        (countAlnum a : Int) - (countAlnum b : Int)) ∧
    countAlnum " &-_é" = 0 ∧ countAlnum "M&M Corner Market" = 14 := by
  have key : CalculatePoints env { r with Retailer := a } =
      wrap64 (CalculatePoints env { r with Retailer := b } +
        ((countAlnum a : Int) - (countAlnum b : Int))) := by
    simp only [calculatePoints_eq, points2, points3, points4, points5, points7, points8,
      wrap64_add_left]
    congr 1
    ring
  refine ⟨key, ?_, by decide, by decide⟩
  rintro ⟨h1, h2⟩
  rw [key, wrap64_of_inRange _ h1 h2]
  ring

/-- C8 (as the code has it): under rule 5 every item adds
`int(math.Ceil(price * 0.2))`, computed in `float64`, when the byte length of
its short description after `strings.TrimSpace` is a multiple of 3, zero
included, and adds nothing otherwise; the loop adds the sum over the items to
the running total. -/
theorem rule5_adds_item_points (env : GoEnv) (r : Receipt) (points : Int) :
    rule5 env r (wrap64 points) = wrap64 (points + (r.Items.map (itemPoints env)).sum) ∧
    (∀ item : Item, byteLen (TrimSpace item.ShortDescription.data) % 3 = 0 →
      rule5Item env (wrap64 points) item =
        wrap64 (points + F64.toInt env (F64.ceil (F64.mul (ParseFloat env item.Price) F64.fifth)))) ∧
    (∀ item : Item, byteLen (TrimSpace item.ShortDescription.data) % 3 ≠ 0 →
      rule5Item env (wrap64 points) item = wrap64 points) := by
  refine ⟨rule5_wrap env r points, ?_, ?_⟩
  · intro item h
    simp [rule5Item, h, wrap64_add_left]
  · intro item h
    simp [rule5Item, h]

set_option maxRecDepth 100000 in
/-- C8, the claim as stated fails: the description " " has trimmed length 0,
which is no positive multiple of 3, yet the item priced "5.00" adds 1 point:
the receipt scores 13 with it and 12 with the description "Mountain Dew 12PK"
at the same price; the validator accepts it. -/
theorem blank_description_scores :
    byteLen (TrimSpace " ".data) = 0 ∧
    validateReceipt { targetReceipt with Items := [{ ShortDescription := " ", Price := "5.00" }] }
      = (true, []) ∧
    (∀ env : GoEnv, rule5Item env 0 { ShortDescription := " ", Price := "5.00" } = 1) ∧
    (∀ env : GoEnv, CalculatePoints env
      { targetReceipt with Items := [{ ShortDescription := " ", Price := "5.00" }] } = 13) ∧
    (∀ env : GoEnv, CalculatePoints env
      { targetReceipt with Items := [{ ShortDescription := "Mountain Dew 12PK", Price := "5.00" }] }
        = 12) :=
  ⟨by decide, by decide, fun _ => rfl, fun _ => rfl, fun _ => rfl⟩

/-- C9: the date "2022-02-30" passes the validator's shape check and is no
calendar date; `time.Parse` fails on it and leaves the zero `Time`, whose day is
1, so rule 7 adds 6 points: the receipt scores 12, as with "2022-01-01", and not
the 6 it scores with the even day "2022-02-28". -/
theorem unreal_date_scores_six :
    datePattern "2022-02-30" = true ∧ parseDate "2022-02-30" = none ∧
    datePattern "2022-13-45" = true ∧ parseDate "2022-13-45" = none ∧
    Time.zero.Day = 1 ∧
    (∀ env : GoEnv,
      CalculatePoints env { targetReceipt with PurchaseDate := "2022-02-30" } = 12) ∧
    (∀ env : GoEnv,
      CalculatePoints env { targetReceipt with PurchaseDate := "2022-13-45" } = 12) ∧
    (∀ env : GoEnv,
      CalculatePoints env { targetReceipt with PurchaseDate := "2022-02-28" } = 6) :=
  ⟨by decide, by decide, by decide, by decide, rfl, fun _ => rfl, fun _ => rfl, fun _ => rfl⟩

/-! ## Theorems: the purchase date -/

theorem digitVal_eq_charDigit (c : Char) : digitVal c = charDigit c := rfl

theorem isLeap_eq_leapYear (y : Nat) : isLeap y = leapYear y := by
  unfold isLeap leapYear
  rw [Bool.eq_iff_iff]
  simp only [Bool.and_eq_true, Bool.or_eq_true, beq_iff_eq, bne_iff_ne, ne_eq,
    decide_eq_true_eq]
  omega

theorem daysIn_eq_daysOfMonth (y m : Nat) (h1 : 1 ≤ m) (h2 : m ≤ 12) :
    daysIn m y = daysOfMonth y m := by
  unfold daysIn daysOfMonth
  rw [isLeap_eq_leapYear]
  interval_cases m <;> simp

theorem getnum_two (a b : Char) (rest : List Char) (fixed : Bool) (ha : isDigit a = true)
    (hb : isDigit b = true) :
    getnum (a :: b :: rest) fixed = some (digitVal a * 10 + digitVal b, rest) := by
  simp [getnum, ha, hb]

theorem parseDate_real (s : String) (y1 y2 y3 y4 m1 m2 d1 d2 : Char)
    (hy1 : AsciiDigit y1) (hy2 : AsciiDigit y2) (hy3 : AsciiDigit y3) (hy4 : AsciiDigit y4)
    (hm1 : AsciiDigit m1) (hm2 : AsciiDigit m2) (hd1 : AsciiDigit d1) (hd2 : AsciiDigit d2)
    (hdate : s.data = [y1, y2, y3, y4, '-', m1, m2, '-', d1, d2])
    (hreal : RealDate (1000 * charDigit y1 + 100 * charDigit y2 + 10 * charDigit y3 + charDigit y4)
      (10 * charDigit m1 + charDigit m2) (10 * charDigit d1 + charDigit d2)) :
    parseDate s = some
      { year := 1000 * charDigit y1 + 100 * charDigit y2 + 10 * charDigit y3 + charDigit y4
        month := 10 * charDigit m1 + charDigit m2
        day := 10 * charDigit d1 + charDigit d2
        hour := 0
        minute := 0 } := by
  obtain ⟨hmlo, hmhi, hdlo, hdhi⟩ := hreal
  rw [← daysIn_eq_daysOfMonth _ _ hmlo hmhi] at hdhi
  rw [← isDigit_iff] at hy1 hy2 hy3 hy4 hm1 hm2 hd1 hd2
  have hdash : ('-' : Char).toNat = 45 := rfl
  have em : digitVal m1 * 10 + digitVal m2 = 10 * charDigit m1 + charDigit m2 := by
    rw [digitVal_eq_charDigit, digitVal_eq_charDigit]; ring
  have ed : digitVal d1 * 10 + digitVal d2 = 10 * charDigit d1 + charDigit d2 := by
    rw [digitVal_eq_charDigit, digitVal_eq_charDigit]; ring
  have ey : digitVal y1 * 1000 + digitVal y2 * 100 + digitVal y3 * 10 + digitVal y4 =
      1000 * charDigit y1 + 100 * charDigit y2 + 10 * charDigit y3 + charDigit y4 := by
    simp only [digitVal_eq_charDigit]; ring
  unfold parseDate
  rw [hdate]
  simp only [hy1, hy2, hy3, hy4, Bool.and_self, Bool.not_true, hdash, getnum_two _ _ _ _ hm1 hm2,
    getnum_two _ _ _ _ hd1 hd2, em, ed, ey]
  have h1 : ¬ (10 * charDigit m1 + charDigit m2 = 0) := by omega
  have h2 : ¬ (12 < 10 * charDigit m1 + charDigit m2) := by omega
  have h3 : ¬ (10 * charDigit d1 + charDigit d2 < 1) := by omega
  have h4 : ¬ (daysIn (10 * charDigit m1 + charDigit m2)
      (1000 * charDigit y1 + 100 * charDigit y2 + 10 * charDigit y3 + charDigit y4) <
        10 * charDigit d1 + charDigit d2) := by omega
  simp [h1, h2, h3, h4]

theorem asciiDigit_of (c : Char) (h : isDigit c = true) : AsciiDigit c := (isDigit_iff c).1 h

/-- C10: for a receipt whose purchase date is a real calendar date written
YYYY-MM-DD, rule 7 adds exactly 6 points when the day of the month (the last
two digits) is odd and nothing when it is even: so does the step of rule 7 on
any running total, and so reads `CalculatePoints` as a whole. -/
theorem real_date_odd_day_adds_six (env : GoEnv) (r : Receipt)
    (y1 y2 y3 y4 m1 m2 d1 d2 : Char)
    (hy1 : AsciiDigit y1) (hy2 : AsciiDigit y2) (hy3 : AsciiDigit y3) (hy4 : AsciiDigit y4)
    (hm1 : AsciiDigit m1) (hm2 : AsciiDigit m2) (hd1 : AsciiDigit d1) (hd2 : AsciiDigit d2)
    (hdate : r.PurchaseDate.data = [y1, y2, y3, y4, '-', m1, m2, '-', d1, d2])
    (hreal : RealDate (1000 * charDigit y1 + 100 * charDigit y2 + 10 * charDigit y3 + charDigit y4)
      (10 * charDigit m1 + charDigit m2) (10 * charDigit d1 + charDigit d2)) :
    (∀ points : Int, rule7 r points =
      if (10 * charDigit d1 + charDigit d2) % 2 = 1 then wrap64 (points + 6) else points) ∧
    CalculatePoints env r =
      wrap64 ((countAlnum r.Retailer : Int) + points2 env r + points3 env r + points4 r +
        points5 env r + (if (10 * charDigit d1 + charDigit d2) % 2 = 1 then 6 else 0) +
        points8 r) := by
  have hp := parseDate_real r.PurchaseDate y1 y2 y3 y4 m1 m2 d1 d2 hy1 hy2 hy3 hy4 hm1 hm2 hd1 hd2
    hdate hreal
  constructor
  · intro points
    simp only [rule7, hp, Option.getD_some, Time.Day, ne_eq, Nat.mod_two_ne_zero]
  · rw [calculatePoints_eq]
    simp only [points7, hp, Option.getD_some, Time.Day, ne_eq, Nat.mod_two_ne_zero]

/-- C10 at two dates: "2022-01-01" is a real date with the odd day 1 and adds
6 points; "2022-01-02" would add none. -/
theorem real_date_odd_day_adds_six_witness :
    RealDate 2022 1 1 ∧
    (∀ points : Int, rule7 targetReceipt points = wrap64 (points + 6)) := by
  have h := fun env => real_date_odd_day_adds_six env targetReceipt '2' '0' '2' '2' '0' '1' '0' '1'
    (asciiDigit_of _ rfl) (asciiDigit_of _ rfl) (asciiDigit_of _ rfl) (asciiDigit_of _ rfl)
    (asciiDigit_of _ rfl) (asciiDigit_of _ rfl) (asciiDigit_of _ rfl) (asciiDigit_of _ rfl)
    rfl (by unfold RealDate; decide)
  refine ⟨by unfold RealDate; decide, fun points => ?_⟩
  have h2 := (h ⟨fun _ => .nan, fun _ => 0⟩).1 points
  simpa [charDigit] using h2

/-! ## Theorems: the store -/

theorem getPoints_saveReceipt_same (s : InMemoryStorage) (id : String) (r : Receipt) (p : Int) :
    (s.SaveReceipt id r p).GetPoints id = (p, true) := by
  simp [InMemoryStorage.GetPoints, InMemoryStorage.SaveReceipt]

theorem getPoints_saveReceipt_other (s : InMemoryStorage) (id k : String) (r : Receipt) (p : Int)
    (h : k ≠ id) : (s.SaveReceipt id r p).GetPoints k = s.GetPoints k := by
  simp [InMemoryStorage.GetPoints, InMemoryStorage.SaveReceipt, h]

theorem getPoints_found_iff (s : InMemoryStorage) (id : String) :
    (s.GetPoints id).2 = true ↔ (s.points id).isSome = true := by
  unfold InMemoryStorage.GetPoints
  cases h : s.points id <;> simp

theorem runSaves_append (s : InMemoryStorage) (xs ys : List SaveCall) :
    runSaves s (xs ++ ys) = runSaves (runSaves s xs) ys := by
  simp [runSaves, List.foldl_append]

theorem runSaves_points_isSome (calls : List SaveCall) (s : InMemoryStorage) (id : String) :
    ((runSaves s calls).points id).isSome = true ↔
      (s.points id).isSome = true ∨ ∃ c ∈ calls, c.1 = id := by
  induction calls generalizing s with
  | nil => simp [runSaves]
  | cons c rest ih =>
    have step : runSaves s (c :: rest) = runSaves (s.SaveReceipt c.1 c.2.1 c.2.2) rest := rfl
    rw [step, ih]
    by_cases hc : id = c.1
    · subst hc
      simp [InMemoryStorage.SaveReceipt]
    · have hc2 : ¬ c.1 = id := fun h => hc h.symm
      simp [InMemoryStorage.SaveReceipt, hc, hc2]

/-- C1: the receipt of the handler test (retailer "Target", date "2022-01-01",
time "13:01", total "35.35", one item "Mountain Dew 12PK" at "6.49") passes
`validateReceipt` with an empty error list and `CalculatePoints` returns 12. -/
theorem target_receipt_valid_and_scores_12 (env : GoEnv) :
    validateReceipt targetReceipt = (true, []) ∧ CalculatePoints env targetReceipt = 12 :=
  ⟨by decide, rfl⟩

/-- C2: in every store state, also one that already holds an entry under `id`,
`GetPoints id` right after `SaveReceipt id r p` returns `(p, true)`; a second
save under the same id replaces the first, so the last save wins. -/
theorem save_then_get_points (s : InMemoryStorage) (id : String) (r r2 : Receipt) (p p2 : Int) :
    (s.SaveReceipt id r p).GetPoints id = (p, true) ∧
    ((s.SaveReceipt id r p).SaveReceipt id r2 p2).GetPoints id = (p2, true) :=
  ⟨getPoints_saveReceipt_same s id r p, getPoints_saveReceipt_same _ id r2 p2⟩

/-- C3: after any finite sequence of `SaveReceipt` calls on the initially empty
store, `GetPoints id` reports `found = true` exactly when some call of the
sequence saved under `id`; when it reports `found = false` the points value is
0; and every lookup on the empty store returns `(0, false)`. -/
theorem get_points_found_iff_saved (calls : List SaveCall) (id : String) :
    (((runSaves Store calls).GetPoints id).2 = true ↔ ∃ c ∈ calls, c.1 = id) ∧
    (((runSaves Store calls).GetPoints id).2 = false →
      ((runSaves Store calls).GetPoints id).1 = 0) ∧
    Store.GetPoints id = (0, false) := by
  refine ⟨?_, ?_, rfl⟩
  · rw [getPoints_found_iff, runSaves_points_isSome]
    simp [Store]
  · unfold InMemoryStorage.GetPoints
    cases h : (runSaves Store calls).points id <;> simp

/-! ## Theorems: the purchase time -/

theorem parseClock_shape (s : String) (h1 h2 m1 m2 : Char)
    (hh1 : AsciiDigit h1) (hh2 : AsciiDigit h2) (hm1 : AsciiDigit m1) (hm2 : AsciiDigit m2)
    (htime : s.data = [h1, h2, ':', m1, m2]) :
    parseClock s =
      if 10 * charDigit h1 + charDigit h2 < 24 ∧ 10 * charDigit m1 + charDigit m2 < 60 then
        some { year := 0, month := 1, day := 1, hour := 10 * charDigit h1 + charDigit h2,
               minute := 10 * charDigit m1 + charDigit m2 }
      else none := by
  rw [← isDigit_iff] at hh1 hh2 hm1 hm2
  have hcolon : (':' : Char).toNat = 58 := rfl
  have eh : digitVal h1 * 10 + digitVal h2 = 10 * charDigit h1 + charDigit h2 := by
    rw [digitVal_eq_charDigit, digitVal_eq_charDigit]; ring
  have em : digitVal m1 * 10 + digitVal m2 = 10 * charDigit m1 + charDigit m2 := by
    rw [digitVal_eq_charDigit, digitVal_eq_charDigit]; ring
  unfold parseClock
  rw [htime]
  simp only [getnum_two _ _ _ _ hh1 hh2, getnum_two _ _ _ _ hm1 hm2, eh, em, hcolon]
  by_cases hh : 10 * charDigit h1 + charDigit h2 < 24
  · by_cases hm : 10 * charDigit m1 + charDigit m2 < 60
    · simp [hh, hm, Nat.not_le.2 hh, Nat.not_le.2 hm]
    · simp [hh, hm, Nat.not_le.2 hh, Nat.not_lt.1 hm]
  · simp [hh, Nat.not_lt.1 hh]

/-- C11: for a receipt whose purchase time is two digits, `:`, two digits,
rule 8 adds exactly 10 points when the hour is 14 and the minute is at most 59,
and nothing for every other time, be it another hour or a time that does not
parse as a 24-hour clock time: so does the step of rule 8 on any running total,
and so reads `CalculatePoints` as a whole. -/
theorem hour_14_adds_ten (env : GoEnv) (r : Receipt) (h1 h2 m1 m2 : Char)
    (hh1 : AsciiDigit h1) (hh2 : AsciiDigit h2) (hm1 : AsciiDigit m1) (hm2 : AsciiDigit m2)
    (htime : r.PurchaseTime.data = [h1, h2, ':', m1, m2]) :
    (∀ points : Int, rule8 r points =
      if 10 * charDigit h1 + charDigit h2 = 14 ∧ 10 * charDigit m1 + charDigit m2 ≤ 59 then
        wrap64 (points + 10)
      else points) ∧
    CalculatePoints env r =
      wrap64 ((countAlnum r.Retailer : Int) + points2 env r + points3 env r + points4 r +
        points5 env r + points7 r +
        (if 10 * charDigit h1 + charDigit h2 = 14 ∧ 10 * charDigit m1 + charDigit m2 ≤ 59 then 10
          else 0)) := by
  have hp := parseClock_shape r.PurchaseTime h1 h2 m1 m2 hh1 hh2 hm1 hm2 htime
  have key : (((parseClock r.PurchaseTime).getD Time.zero).Hour = 14) ↔
      (10 * charDigit h1 + charDigit h2 = 14 ∧ 10 * charDigit m1 + charDigit m2 ≤ 59) := by
    rw [hp]
    split_ifs with hc
    · simp only [Option.getD_some, Time.Hour]
      omega
    · simp only [Option.getD_none, Time.Hour, Time.zero]
      omega
  constructor
  · intro points
    simp only [rule8, key]
  · rw [calculatePoints_eq]
    simp only [points8, key]

/-- C11 at three times: "14:30" adds 10 points, "13:01" (the test receipt) and
the unparsable "14:60" add none. -/
theorem hour_14_adds_ten_witness :
    (∀ points : Int,
      rule8 { targetReceipt with PurchaseTime := "14:30" } points = wrap64 (points + 10)) ∧
    (∀ points : Int, rule8 targetReceipt points = points) ∧
    (∀ points : Int, rule8 { targetReceipt with PurchaseTime := "14:60" } points = points) := by
  have env : GoEnv := ⟨fun _ => .nan, fun _ => 0⟩
  refine ⟨fun points => ?_, fun points => ?_, fun points => ?_⟩
  · have h := (hour_14_adds_ten env { targetReceipt with PurchaseTime := "14:30" } '1' '4' '3' '0'
      (asciiDigit_of _ rfl) (asciiDigit_of _ rfl) (asciiDigit_of _ rfl) (asciiDigit_of _ rfl)
      rfl).1 points
    simpa [charDigit] using h
  · have h := (hour_14_adds_ten env targetReceipt '1' '3' '0' '1'
      (asciiDigit_of _ rfl) (asciiDigit_of _ rfl) (asciiDigit_of _ rfl) (asciiDigit_of _ rfl)
      rfl).1 points
    simpa [charDigit] using h
  · have h := (hour_14_adds_ten env { targetReceipt with PurchaseTime := "14:60" } '1' '4' '6' '0'
      (asciiDigit_of _ rfl) (asciiDigit_of _ rfl) (asciiDigit_of _ rfl) (asciiDigit_of _ rfl)
      rfl).1 points
    simpa [charDigit] using h

/-- C12: the header comment of `CalculatePoints` promises the 10 points for a
purchase time between 2:00 PM and 4:00 PM, but the code tests the hour for 14
only: the test receipt scores 22 at "14:30" and 12 at "15:30" and "15:59", the
same as at "13:01" and "16:00". -/
theorem hour_15_gets_no_bonus :
    (∀ env : GoEnv, CalculatePoints env { targetReceipt with PurchaseTime := "14:30" } = 22) ∧
    (∀ env : GoEnv, CalculatePoints env { targetReceipt with PurchaseTime := "15:30" } = 12) ∧
    (∀ env : GoEnv, CalculatePoints env { targetReceipt with PurchaseTime := "15:59" } = 12) ∧
    (∀ env : GoEnv, CalculatePoints env { targetReceipt with PurchaseTime := "16:00" } = 12) ∧
    (∀ env : GoEnv, CalculatePoints env targetReceipt = 12) ∧
    validateReceipt { targetReceipt with PurchaseTime := "15:30" } = (true, []) :=
  ⟨fun _ => rfl, fun _ => rfl, fun _ => rfl, fun _ => rfl, fun _ => rfl, by decide⟩

/-! ## Theorems: the total -/

set_option maxRecDepth 100000 in
theorem parseFloat_ten (env : GoEnv) :
    ParseFloat env "10.00" = .fin 5629499534213120 (-49) := rfl

theorem ten_eq_floor :
    F64.eq (.fin 5629499534213120 (-49)) (F64.floor (.fin 5629499534213120 (-49))) = true := by
  decide

theorem ten_times_100 :
    F64.mul (.fin 5629499534213120 (-49)) (F64.ofNat 100) = .fin 8796093022208000 (-43) := by
  decide

theorem toInt_1000 (env : GoEnv) : F64.toInt env (.fin 8796093022208000 (-43)) = 1000 := rfl

theorem points2_ten (env : GoEnv) (r : Receipt) (h : r.Total = "10.00") :
    points2 env r = 50 := by
  unfold points2
  rw [h, parseFloat_ten, ten_eq_floor]
  rfl

theorem points3_ten (env : GoEnv) (r : Receipt) (h : r.Total = "10.00") :
    points3 env r = 25 := by
  unfold points3
  rw [h, parseFloat_ten, ten_times_100, toInt_1000]
  rfl

/-- C14 (as the code has it): for a receipt whose total is the literal "10.00"
rule 2 and rule 3 both fire: they add 50 and 25, and `CalculatePoints` is 75
plus what the retailer (rule 1), the item pairs (rule 4), the item
descriptions (rule 5), the purchase date (rule 7) and the purchase time
(rule 8) add, modulo `2^64` in the 64-bit arithmetic of Go's `int`, and exactly
that sum whenever it lies within the range of `int` (no overflow). -/
theorem total_ten_adds_75 (env : GoEnv) (r : Receipt) (h : r.Total = "10.00") :
    points2 env r = 50 ∧ points3 env r = 25 ∧
    CalculatePoints env r =
      wrap64 (75 + ((countAlnum r.Retailer : Int) + points4 r + points5 env r + points7 r +
        points8 r)) ∧
    (-9223372036854775808 ≤
        75 + ((countAlnum r.Retailer : Int) + points4 r + points5 env r + points7 r + points8 r) →
      75 + ((countAlnum r.Retailer : Int) + points4 r + points5 env r + points7 r + points8 r)
        < 9223372036854775808 →
      CalculatePoints env r =
        75 + ((countAlnum r.Retailer : Int) + points4 r + points5 env r + points7 r +
          points8 r)) := by
  have key : CalculatePoints env r =
      wrap64 (75 + ((countAlnum r.Retailer : Int) + points4 r + points5 env r + points7 r +
        points8 r)) := by
    rw [calculatePoints_eq, points2_ten env r h, points3_ten env r h]
    congr 1
    ring
  refine ⟨points2_ten env r h, points3_ten env r h, key, ?_⟩
  intro h1 h2
  rw [key]
  exact wrap64_of_inRange _ h1 h2

/-- C14 at the receipt of the test: retailer "Test Retailer" (12 letters),
total "10.00", nothing else set: 75 from rules 2 and 3, 12 from the retailer
and 6 from rule 7 (the empty date does not parse), 93 in all. -/
theorem total_ten_adds_75_witness :
    roundDollarReceipt.Total = "10.00" ∧
    (∀ env : GoEnv, points2 env roundDollarReceipt = 50 ∧ points3 env roundDollarReceipt = 25) ∧
    (∀ env : GoEnv, CalculatePoints env roundDollarReceipt = 93) := by
  refine ⟨rfl, fun env => ?_, fun env => ?_⟩
  · exact ⟨(total_ten_adds_75 env roundDollarReceipt rfl).1,
      (total_ten_adds_75 env roundDollarReceipt rfl).2.1⟩
  · rw [(total_ten_adds_75 env roundDollarReceipt rfl).2.2.1]
    rfl

set_option maxRecDepth 100000 in
/-- C13: the header comment gives the 25 points of rule 3 to a total that is a
multiple of 0.25, but the cents are `int(totalFloat*100)`: for "2.26" the
product is 225.99999999999997, truncated to 225, and rule 3 adds 25 points (the
test receipt scores 37 instead of 12); the same happens at "2.01" and "2.51",
while "0.29" (28 after truncation) and "2.27" add nothing and "2.25" adds 25. -/
theorem total_2_26_gets_25 :
    totalPattern "2.26" = true ∧
    (∀ env : GoEnv, F64.toInt env (F64.mul (ParseFloat env "2.26") (F64.ofNat 100)) = 225) ∧
    (∀ env : GoEnv, points3 env { targetReceipt with Total := "2.26" } = 25) ∧
    (∀ env : GoEnv, CalculatePoints env { targetReceipt with Total := "2.26" } = 37) ∧
    (∀ env : GoEnv, points3 env { targetReceipt with Total := "2.01" } = 25) ∧
    (∀ env : GoEnv, points3 env { targetReceipt with Total := "2.51" } = 25) ∧
    (∀ env : GoEnv, points3 env { targetReceipt with Total := "0.29" } = 0) ∧
    (∀ env : GoEnv, points3 env { targetReceipt with Total := "2.27" } = 0) ∧
    (∀ env : GoEnv, points3 env { targetReceipt with Total := "2.25" } = 25) :=
  ⟨by decide, fun _ => rfl, fun _ => rfl, fun _ => rfl, fun _ => rfl, fun _ => rfl, fun _ => rfl,
    fun _ => rfl, fun _ => rfl⟩

/-! ## Theorems: the items -/

theorem points5_of_no_multiple (env : GoEnv) (items : List Item)
    (h : ∀ item ∈ items, byteLen (TrimSpace item.ShortDescription.data) % 3 ≠ 0) :
    (items.map (itemPoints env)).sum = 0 := by
  induction items with
  | nil => rfl
  | cons item rest ih =>
    have h1 : itemPoints env item = 0 := by
      unfold itemPoints
      rw [if_neg (h item (by simp))]
    rw [List.map_cons, List.sum_cons, h1, ih (fun i hi => h i (by simp [hi]))]
    rfl

theorem calculatePoints_inRange (env : GoEnv) (r : Receipt) :
    -9223372036854775808 ≤ CalculatePoints env r ∧
      CalculatePoints env r < 9223372036854775808 := by
  rw [calculatePoints_eq]
  exact wrap64_inRange _

/-- C15: rule 4 adds `floor(n/2)*5` for `n` items. For a receipt none of whose
items has a trimmed description length divisible by 3, `CalculatePoints` is
the points of the same receipt with the item list emptied plus
`floor(n/2)*5`, in the 64-bit arithmetic of Go's `int`, that is exactly that
sum whenever it lies within the range of `int`. -/
theorem pairs_add_five (env : GoEnv) (r : Receipt)
    (h : ∀ item ∈ r.Items, byteLen (TrimSpace item.ShortDescription.data) % 3 ≠ 0) :
    points4 r = ((r.Items.length / 2 : Nat) : Int) * 5 ∧
    CalculatePoints env r =
      wrap64 (CalculatePoints env { r with Items := [] } +
        ((r.Items.length / 2 : Nat) : Int) * 5) ∧
    (CalculatePoints env { r with Items := [] } + ((r.Items.length / 2 : Nat) : Int) * 5
        < 9223372036854775808 →
      CalculatePoints env r =
        CalculatePoints env { r with Items := [] } + ((r.Items.length / 2 : Nat) : Int) * 5) := by
  have h5 : points5 env r = 0 := points5_of_no_multiple env r.Items h
  have key : CalculatePoints env r =
      wrap64 (CalculatePoints env { r with Items := [] } +
        ((r.Items.length / 2 : Nat) : Int) * 5) := by
    rw [calculatePoints_eq, calculatePoints_eq, h5, wrap64_add_left]
    simp only [points2, points3, points4, points5, points7, points8, List.length_nil,
      List.map_nil, List.sum_nil, Nat.zero_div, Nat.cast_zero, zero_mul, add_zero]
    congr 1
    ring
  refine ⟨rfl, key, ?_⟩
  intro h2
  rw [key]
  apply wrap64_of_inRange _ _ h2
  have hlo := (calculatePoints_inRange env { r with Items := [] }).1
  have hn : (0 : Int) ≤ ((r.Items.length / 2 : Nat) : Int) * 5 := by positivity
  omega

/-- C15 at three item counts: the test receipt has one item, whose description
has 17 bytes, and scores 12 like the receipt without items; with that item
twice it scores 17, with it three times 17 as well. -/
theorem pairs_add_five_witness :
    (∀ env : GoEnv, CalculatePoints env targetReceipt = 12 ∧
      CalculatePoints env { targetReceipt with Items := [] } = 12) ∧
    (∀ env : GoEnv, CalculatePoints env { targetReceipt with Items :=
      [{ ShortDescription := "Mountain Dew 12PK", Price := "6.49" },
       { ShortDescription := "Mountain Dew 12PK", Price := "6.49" }] } = 17) ∧
    (∀ env : GoEnv, CalculatePoints env { targetReceipt with Items :=
      [{ ShortDescription := "Mountain Dew 12PK", Price := "6.49" },
       { ShortDescription := "Mountain Dew 12PK", Price := "6.49" },
       { ShortDescription := "Mountain Dew 12PK", Price := "6.49" }] } = 17) := by
  refine ⟨fun env => ⟨?_, rfl⟩, fun env => ?_, fun env => ?_⟩
  · rw [(pairs_add_five env targetReceipt (by decide)).2.1]
    rfl
  · rw [(pairs_add_five env _ (by decide)).2.1]
    rfl
  · rw [(pairs_add_five env _ (by decide)).2.1]
    rfl

/-! ## Theorems: the handlers -/

/-- C17: the guard of `GetPointsHandler` reads `pathParts[3]` after checking
only `len(pathParts) < 3`: for "/receipts/abc" (three parts) the index is out
of range and the handler panics instead of answering 400; for
"/receipts/abc/points/extra" (five parts) the guard passes and the store is
asked for "abc". "/invalid-url" is answered 400 and "/receipts/abc/points"
reaches the store. -/
theorem short_path_index_out_of_range :
    (splitSlash "/receipts/abc".data).map String.mk = ["", "receipts", "abc"] ∧
    (∀ store : InMemoryStorage,
      GetPointsHandler store "/receipts/abc" = GetPointsResult.indexOutOfRange) ∧
    (∀ store : InMemoryStorage,
      GetPointsHandler store "/receipts/" = GetPointsResult.indexOutOfRange) ∧
    GetPointsHandler Store "/receipts/abc/points/extra" = GetPointsResult.notFound "abc" ∧
    GetPointsHandler (Store.SaveReceipt "abc" targetReceipt 12) "/receipts/abc/points/extra"
      = GetPointsResult.ok "abc" 12 ∧
    (∀ store : InMemoryStorage,
      GetPointsHandler store "/invalid-url" = GetPointsResult.badRequest) ∧
    GetPointsHandler Store "/receipts/non-existent-id/points"
      = GetPointsResult.notFound "non-existent-id" ∧
    GetPointsHandler (Store.SaveReceipt "test-id" targetReceipt 10) "/receipts/test-id/points"
      = GetPointsResult.ok "test-id" 10 :=
  ⟨by decide, fun _ => rfl, fun _ => rfl, by decide, by decide, fun _ => rfl, by decide,
    by decide⟩

theorem processReceipt_invalid (env : GoEnv) (store : InMemoryStorage) (receipt : Receipt)
    (newId : String) (h : (validateReceipt receipt).1 = false) :
    ProcessReceiptHandler env store (some receipt) newId =
      (store, ProcessResult.validationFailed (validateReceipt receipt).2) := by
  simp only [ProcessReceiptHandler, h]
  rfl

theorem processReceipt_valid (env : GoEnv) (store : InMemoryStorage) (receipt : Receipt)
    (newId : String) (h : (validateReceipt receipt).1 = true) :
    ProcessReceiptHandler env store (some receipt) newId =
      (store.SaveReceipt newId receipt (CalculatePoints env receipt),
        ProcessResult.created newId) := by
  simp only [ProcessReceiptHandler, h]
  rfl

theorem storedValid_step (env : GoEnv) (s : InMemoryStorage) (body : Option Receipt)
    (newId : String) (h : StoredValid env s) :
    StoredValid env (ProcessReceiptHandler env s body newId).1 := by
  cases body with
  | none => exact h
  | some receipt =>
    cases hv : (validateReceipt receipt).1 with
    | false => rw [processReceipt_invalid env s receipt newId hv]; exact h
    | true =>
      rw [processReceipt_valid env s receipt newId hv]
      intro k r hk
      simp only [InMemoryStorage.SaveReceipt] at hk ⊢
      by_cases hkid : k = newId
      · simp only [hkid, if_true, Option.some.injEq] at hk ⊢
        subst hk
        exact ⟨hv, rfl⟩
      · simp only [hkid, if_false] at hk ⊢
        exact h k r hk

theorem storedValid_runSubmits (env : GoEnv) (requests : List (Option Receipt × String))
    (s : InMemoryStorage) (h : StoredValid env s) : StoredValid env (runSubmits env s requests) := by
  induction requests generalizing s with
  | nil => exact h
  | cons q rest ih => exact ih _ (storedValid_step env s q.1 q.2 h)

/-- C18: in every store state and for every decoded receipt,
`ProcessReceiptHandler` leaves the store as it is when `validateReceipt`
rejects the receipt; otherwise it answers the generated id and the store then
maps that id to the receipt and to `CalculatePoints(receipt)`, every other id
being as before, so that `GetPoints` on the returned id yields
`(CalculatePoints(receipt), true)`. Hence after any sequence of submissions to
the initially empty store every stored receipt passed validation and carries
the points computed for it. -/
theorem submit_stores_valid_receipts_only (env : GoEnv) (store : InMemoryStorage)
    (receipt : Receipt) (newId : String) :
    ((validateReceipt receipt).1 = false →
      (ProcessReceiptHandler env store (some receipt) newId).1 = store ∧
      (ProcessReceiptHandler env store (some receipt) newId).2 =
        ProcessResult.validationFailed (validateReceipt receipt).2) ∧
    ((validateReceipt receipt).1 = true →
      (ProcessReceiptHandler env store (some receipt) newId).2 = ProcessResult.created newId ∧
      (ProcessReceiptHandler env store (some receipt) newId).1.receipts newId = some receipt ∧
      (ProcessReceiptHandler env store (some receipt) newId).1.points newId =
        some (CalculatePoints env receipt) ∧
      (∀ k : String, k ≠ newId →
        (ProcessReceiptHandler env store (some receipt) newId).1.receipts k = store.receipts k ∧
        (ProcessReceiptHandler env store (some receipt) newId).1.points k = store.points k) ∧
      (ProcessReceiptHandler env store (some receipt) newId).1.GetPoints newId =
        (CalculatePoints env receipt, true)) ∧
    (ProcessReceiptHandler env store none newId).1 = store ∧
    (∀ (requests : List (Option Receipt × String)) (k : String) (r : Receipt),
      (runSubmits env Store requests).receipts k = some r →
        (validateReceipt r).1 = true ∧
        (runSubmits env Store requests).points k = some (CalculatePoints env r)) := by
  refine ⟨fun h => ?_, fun h => ?_, rfl, fun requests k r hk => ?_⟩
  · rw [processReceipt_invalid env store receipt newId h]
    exact ⟨rfl, rfl⟩
  · rw [processReceipt_valid env store receipt newId h]
    refine ⟨rfl, by simp [InMemoryStorage.SaveReceipt], by simp [InMemoryStorage.SaveReceipt],
      fun k hk => by simp [InMemoryStorage.SaveReceipt, hk], getPoints_saveReceipt_same _ _ _ _⟩
  · have hempty : StoredValid env Store := by
      intro k r hk
      simp [Store] at hk
    exact storedValid_runSubmits env requests Store hempty k r hk

theorem saveReceipt_keys (s : InMemoryStorage) (id : String) (r : Receipt) (p : Int)
    (h : ∀ k, (s.receipts k).isSome = (s.points k).isSome) (k : String) :
    ((s.SaveReceipt id r p).receipts k).isSome = ((s.SaveReceipt id r p).points k).isSome := by
  simp only [InMemoryStorage.SaveReceipt]
  by_cases hk : k = id
  · simp [hk]
  · simp [hk, h k]

theorem runSaves_keys (calls : List SaveCall) (s : InMemoryStorage)
    (h : ∀ k, (s.receipts k).isSome = (s.points k).isSome) (k : String) :
    ((runSaves s calls).receipts k).isSome = ((runSaves s calls).points k).isSome := by
  induction calls generalizing s with
  | nil => exact h k
  | cons c rest ih => exact ih _ (fun j => saveReceipt_keys s c.1 c.2.1 c.2.2 h j)

/-- C20: `SaveReceipt` changes only the entry of the id it is given: for every
other id `GetPoints` returns the same pair after the call as before it, in
every store state; and the receipts map and the points map have the same keys
after every sequence of `SaveReceipt` calls on the initially empty store (a
call keeps the two key sets equal). -/
theorem save_touches_one_id (s : InMemoryStorage) (id : String) (r : Receipt) (p : Int) :
    (∀ k : String, k ≠ id →
      (s.SaveReceipt id r p).GetPoints k = s.GetPoints k ∧
      (s.SaveReceipt id r p).receipts k = s.receipts k) ∧
    ((∀ k : String, (s.receipts k).isSome = (s.points k).isSome) →
      ∀ k : String,
        ((s.SaveReceipt id r p).receipts k).isSome = ((s.SaveReceipt id r p).points k).isSome) ∧
    (∀ (calls : List SaveCall) (k : String),
      ((runSaves Store calls).receipts k).isSome = ((runSaves Store calls).points k).isSome) := by
  refine ⟨fun k hk => ⟨getPoints_saveReceipt_other s id k r p hk, ?_⟩,
    fun h k => saveReceipt_keys s id r p h k, fun calls k => runSaves_keys calls Store ?_ k⟩
  · simp [InMemoryStorage.SaveReceipt, hk]
  · intro j
    rfl

/-! ## Theorems: exact float arithmetic on small integers -/

theorem bitsAux_zero (fuel : Nat) : bitsAux fuel 0 = 0 := by
  cases fuel <;> simp [bitsAux]

theorem bitsAux_spec (fuel : Nat) :
    ∀ n : Nat, n ≤ fuel → n < 2 ^ bitsAux fuel n ∧ (n ≠ 0 → 2 ^ (bitsAux fuel n - 1) ≤ n) := by
  induction fuel with
  | zero =>
    intro n hn
    have : n = 0 := by omega
    subst this
    simp [bitsAux]
  | succ fuel ih =>
    intro n hn
    by_cases h0 : n = 0
    · subst h0
      simp [bitsAux]
    · have hstep : bitsAux (fuel + 1) n = bitsAux fuel (n / 2) + 1 := by
        simp [bitsAux, h0]
      have hhalf : n / 2 ≤ fuel := by omega
      obtain ⟨hup, hlo⟩ := ih (n / 2) hhalf
      rw [hstep]
      constructor
      · rw [pow_succ]
        omega
      · intro _
        simp only [Nat.add_sub_cancel]
        by_cases h2 : n / 2 = 0
        · rw [h2, bitsAux_zero]
          simp
          omega
        · have hl := hlo h2
          have hpos : 0 < bitsAux fuel (n / 2) := by
            by_contra hc
            have : bitsAux fuel (n / 2) = 0 := by omega
            rw [this] at hup
            simp at hup
            exact h2 hup
          have e : bitsAux fuel (n / 2) = (bitsAux fuel (n / 2) - 1) + 1 := by omega
          rw [e, pow_succ]
          omega

theorem lt_two_pow_bitLength (n : Nat) : n < 2 ^ bitLength n :=
  (bitsAux_spec n n (le_refl n)).1

theorem two_pow_bitLength_le (n : Nat) (h : n ≠ 0) : 2 ^ (bitLength n - 1) ≤ n :=
  (bitsAux_spec n n (le_refl n)).2 h

theorem floorLog2_lt (n d B : Nat) (hn : n ≠ 0) (h : n < d * 2 ^ B) :
    floorLog2 n d < (B : Int) := by
  unfold floorLog2
  simp only
  split_ifs with hc
  · unfold scale2 at hc
    split_ifs at hc with hk
    · simp only at hc
      have h1 : d * 2 ^ ((bitLength n : Int) - (bitLength d : Int)).toNat < d * 2 ^ B :=
        lt_of_le_of_lt hc h
      have hd : 0 < d := by
        rcases Nat.eq_zero_or_pos d with h0 | h0
        · rw [h0] at h; simp at h
        · exact h0
      have h2 : 2 ^ ((bitLength n : Int) - (bitLength d : Int)).toNat < 2 ^ B :=
        Nat.lt_of_mul_lt_mul_left h1
      have h3 := (Nat.pow_lt_pow_iff_right (show 1 < 2 by norm_num)).1 h2
      omega
    · omega
  · have hlo := two_pow_bitLength_le n hn
    have hup := lt_two_pow_bitLength d
    have h1 : n < 2 ^ (bitLength d + B) := by
      rw [pow_add]
      calc n < d * 2 ^ B := h
        _ ≤ 2 ^ bitLength d * 2 ^ B := Nat.mul_le_mul_right _ (le_of_lt hup)
    have h2 : 2 ^ (bitLength n - 1) < 2 ^ (bitLength d + B) := lt_of_le_of_lt hlo h1
    have h3 := (Nat.pow_lt_pow_iff_right (show 1 < 2 by norm_num)).1 h2
    omega

theorem roundHalfEven_mul (a d : Nat) (hd : 0 < d) : roundHalfEven (a * d) d = a := by
  unfold roundHalfEven
  simp [Nat.mul_div_cancel _ hd, hd]

theorem ofRatio_exact (v d : Nat) (hd : 0 < d) (hv : v < 9007199254740992) :
    ∃ k : Nat, F64.ofRatio false (v * d) d = .fin ((v * 2 ^ k : Nat) : Int) (-(k : Int)) := by
  by_cases hv0 : v = 0
  · subst hv0
    exact ⟨0, by simp [F64.ofRatio]⟩
  · have hn : v * d ≠ 0 := Nat.mul_ne_zero hv0 (by omega)
    have hlt : v * d < d * 2 ^ 53 := by
      have h53 : (2 : Nat) ^ 53 = 9007199254740992 := by norm_num
      rw [h53, Nat.mul_comm d]
      exact Nat.mul_lt_mul_of_pos_right hv hd
    have he := floorLog2_lt (v * d) d 53 hn hlt
    refine ⟨(52 - max (floorLog2 (v * d) d) (-1022)).toNat, ?_⟩
    have hq : max (floorLog2 (v * d) d) (-1022) - 52 ≤ 0 := by
      have : max (floorLog2 (v * d) d) (-1022) ≤ 52 := max_le (by omega) (by norm_num)
      omega
    have hqk : max (floorLog2 (v * d) d) (-1022) - 52 =
        -((52 - max (floorLog2 (v * d) d) (-1022)).toNat : Int) := by
      omega
    unfold F64.ofRatio
    rw [if_neg hn]
    simp only
    have hs : roundHalfEven (scale2 (v * d) d (max (floorLog2 (v * d) d) (-1022) - 52)).1
        (scale2 (v * d) d (max (floorLog2 (v * d) d) (-1022) - 52)).2 =
        v * 2 ^ (52 - max (floorLog2 (v * d) d) (-1022)).toNat := by
      unfold scale2
      split_ifs with h0
      · have hk0 : (52 - max (floorLog2 (v * d) d) (-1022)).toNat = 0 := by omega
        have hk1 : (max (floorLog2 (v * d) d) (-1022) - 52).toNat = 0 := by omega
        simp only [hk0, hk1, pow_zero, mul_one]
        exact roundHalfEven_mul v d hd
      · have hk : (-(max (floorLog2 (v * d) d) (-1022) - 52)).toNat =
            (52 - max (floorLog2 (v * d) d) (-1022)).toNat := by
          congr 1
          omega
        simp only [hk]
        rw [show v * d * 2 ^ (52 - max (floorLog2 (v * d) d) (-1022)).toNat =
          (v * 2 ^ (52 - max (floorLog2 (v * d) d) (-1022)).toNat) * d by ring]
        exact roundHalfEven_mul _ d hd
    rw [hs]
    rw [if_neg (by omega)]
    simp only [Bool.false_eq_true, if_false]
    rw [hqk]

theorem eq_floor_exact (a k : Nat) :
    F64.eq (.fin ((a * 2 ^ k : Nat) : Int) (-(k : Int)))
      (F64.floor (.fin ((a * 2 ^ k : Nat) : Int) (-(k : Int)))) = true := by
  simp only [F64.floor]
  split_ifs with h0
  · simp [F64.eq]
  · have hk : (- -(k : Int)).toNat = k := by omega
    have hdiv : ((a * 2 ^ k : Nat) : Int) / 2 ^ k = (a : Int) := by
      have hpos : (0 : Int) < 2 ^ k := by positivity
      rw [Nat.cast_mul, Nat.cast_pow, Nat.cast_ofNat, Int.mul_ediv_cancel _ (ne_of_gt hpos)]
    have hmin : min (-(k : Int)) 0 = -(k : Int) := min_eq_left (by omega)
    simp only [F64.eq, hk, hdiv, hmin, sub_self, Int.toNat_zero, pow_zero, mul_one,
      zero_sub, neg_neg, Int.toNat_ofNat, decide_eq_true_eq]
    push_cast
    ring

theorem toInt_exact (env : GoEnv) (b k : Nat) (hb : b < 9223372036854775808) :
    F64.toInt env (.fin ((b * 2 ^ k : Nat) : Int) (-(k : Int))) = (b : Int) := by
  have ht : (if (0 : Int) ≤ -(k : Int) then ((b * 2 ^ k : Nat) : Int) * 2 ^ (-(k : Int)).toNat
      else Int.tdiv ((b * 2 ^ k : Nat) : Int) (2 ^ (- -(k : Int)).toNat)) = (b : Int) := by
    split_ifs with h0
    · have hk : k = 0 := by omega
      subst hk
      simp
    · have hk : (- -(k : Int)).toNat = k := by omega
      have hpos : (0 : Int) < 2 ^ k := by positivity
      rw [hk, Nat.cast_mul, Nat.cast_pow, Nat.cast_ofNat, Int.mul_tdiv_cancel _ (ne_of_gt hpos)]
  unfold F64.toInt
  simp only [ht]
  rw [if_pos ⟨by omega, by omega⟩]

theorem mul_hundred_exact (a k : Nat) (ha : a * 100 < 9007199254740992) :
    ∃ j : Nat, F64.mul (.fin ((a * 2 ^ k : Nat) : Int) (-(k : Int))) (F64.ofNat 100) =
      .fin ((a * 100 * 2 ^ j : Nat) : Int) (-(j : Int)) := by
  obtain ⟨j, hj⟩ := ofRatio_exact (a * 100) (2 ^ k) (by positivity) ha
  refine ⟨j, ?_⟩
  have hprod : ((a * 2 ^ k : Nat) : Int) * ((100 : Nat) : Int) = ((a * 100 * 2 ^ k : Nat) : Int) := by
    push_cast
    ring
  have hneg : ¬ (((a * 100 * 2 ^ k : Nat) : Int) < 0) := by
    have := Int.natCast_nonneg (a * 100 * 2 ^ k)
    omega
  unfold F64.mul F64.ofNat
  simp only [hprod, Int.natAbs_ofNat, hneg, decide_False]
  have hs : scale2 (a * 100 * 2 ^ k) 1 (-(-(k : Int) + 0)) = (a * 100 * 2 ^ k, 2 ^ k) := by
    unfold scale2
    rw [if_pos (by omega)]
    have hk : (-(-(k : Int) + 0)).toNat = k := by omega
    rw [hk, one_mul]
  rw [hs]
  exact hj


/-! ## Theorems: whole-dollar totals -/

theorem decimalParts_shape (ds : List Char) (a b : Char) (hne : ds ≠ [])
    (hds : ∀ c ∈ ds, AsciiDigit c) (ha : AsciiDigit a) (hb : AsciiDigit b) :
    decimalParts (ds ++ ['.', a, b]) = some (ds, [a, b]) := by
  have hds2 : ∀ c ∈ ds, isDigit c = true := fun c hc => (isDigit_iff c).2 (hds c hc)
  unfold decimalParts
  rw [takeWhile_digits_append ds _ hds2, dropWhile_digits_append ds _ hds2]
  have hpt : ('.' : Char).toNat = 46 := rfl
  simp [List.takeWhile_cons, List.dropWhile_cons, point_not_digit, hne, (isDigit_iff a).2 ha,
    (isDigit_iff b).2 hb, hpt]

theorem digitsValue_append_zeros (ds : List Char) :
    digitsValue (ds ++ ['0', '0']) = digitsValue ds * 100 := by
  have h0 : ('0' : Char).toNat = 48 := rfl
  simp only [digitsValue, List.foldl_append, List.foldl_cons, List.foldl_nil, h0]
  omega

theorem parseFloat_wholeDollar (env : GoEnv) (s : String) (n : Nat) (h : WholeDollar s n)
    (hn : n < 9007199254740992) :
    ∃ k : Nat, ParseFloat env s = .fin ((n * 2 ^ k : Nat) : Int) (-(k : Int)) := by
  obtain ⟨ds, hne, hds, hval, hdata⟩ := h
  have hzero : AsciiDigit '0' := asciiDigit_of _ rfl
  obtain ⟨k, hk⟩ := ofRatio_exact n 100 (by norm_num) hn
  refine ⟨k, ?_⟩
  unfold ParseFloat
  rw [hdata, decimalParts_shape ds '0' '0' hne hds hzero hzero]
  simp only [digitsValue_append_zeros, hval, List.length_cons, List.length_nil]
  exact hk

theorem points2_wholeDollar (env : GoEnv) (r : Receipt) (n : Nat) (h : WholeDollar r.Total n)
    (hn : n < 9007199254740992) : points2 env r = 50 := by
  obtain ⟨k, hk⟩ := parseFloat_wholeDollar env r.Total n h hn
  unfold points2
  rw [hk, eq_floor_exact]
  rfl

theorem points3_wholeDollar (env : GoEnv) (r : Receipt) (n : Nat) (h : WholeDollar r.Total n)
    (hn : n ≤ 90071992547409) : points3 env r = 25 := by
  obtain ⟨k, hk⟩ := parseFloat_wholeDollar env r.Total n h (by omega)
  obtain ⟨j, hj⟩ := mul_hundred_exact n k (by omega)
  unfold points3
  rw [hk, hj, toInt_exact env (n * 100) j (by omega)]
  have : Int.tmod ((n * 100 : Nat) : Int) 25 = 0 := by
    rw [Int.tmod_eq_emod (Int.natCast_nonneg _) (by norm_num)]
    omega
  rw [if_pos this]

/-- Rule 6 is a comment and adds nothing.
`CalculatePoints` reads the total in rules 2 and 3 only: two receipts that
differ only in the total and get the same from rules 2 and 3 get the same
points. For a whole-dollar total of at most 90071992547409.00, for which
`totalFloat*100` is exact, rules 2 and 3 add 50 and 25, so two receipts that
differ only in such totals get the same points, whether the total is greater
than 10.00 or not: no 5-point bonus exists. -/
theorem whole_dollar_totals_same_points (env : GoEnv) (r : Receipt) (t1 t2 : String)
    (n1 n2 : Nat) (h1 : WholeDollar t1 n1) (h2 : WholeDollar t2 n2)
    (hn1 : n1 ≤ 90071992547409) (hn2 : n2 ≤ 90071992547409) :
    CalculatePoints env { r with Total := t1 } = CalculatePoints env { r with Total := t2 } ∧
    CalculatePoints env { r with Total := t1 } =
      wrap64 ((countAlnum r.Retailer : Int) + 50 + 25 + points4 r + points5 env r + points7 r +
        points8 r) ∧
    (∀ u1 u2 : String,
      points2 env { r with Total := u1 } = points2 env { r with Total := u2 } →
      points3 env { r with Total := u1 } = points3 env { r with Total := u2 } →
      CalculatePoints env { r with Total := u1 } = CalculatePoints env { r with Total := u2 }) := by
  have key : ∀ (t : String) (n : Nat), WholeDollar t n → n ≤ 90071992547409 →
      CalculatePoints env { r with Total := t } =
        wrap64 ((countAlnum r.Retailer : Int) + 50 + 25 + points4 r + points5 env r + points7 r +
          points8 r) := by
    intro t n ht hn
    rw [calculatePoints_eq, points2_wholeDollar env { r with Total := t } n ht (by omega),
      points3_wholeDollar env { r with Total := t } n ht hn]
    rfl
  refine ⟨by rw [key t1 n1 h1 hn1, key t2 n2 h2 hn2], key t1 n1 h1 hn1, ?_⟩
  intro u1 u2 e2 e3
  rw [calculatePoints_eq, calculatePoints_eq, e2, e3]
  rfl

/-- The totals "9.00" and "11.00" are both whole-dollar amounts, and the receipt
of the handler test scores 87 with either. -/
theorem whole_dollar_totals_same_points_witness :
    WholeDollar "9.00" 9 ∧ WholeDollar "11.00" 11 ∧
    (∀ env : GoEnv, CalculatePoints env { targetReceipt with Total := "9.00" } =
      CalculatePoints env { targetReceipt with Total := "11.00" }) ∧
    (∀ env : GoEnv, CalculatePoints env { targetReceipt with Total := "11.00" } = 87) := by
  have w9 : WholeDollar "9.00" 9 :=
    ⟨['9'], by simp, by intro c hc; simp at hc; subst hc; exact asciiDigit_of _ rfl, rfl, rfl⟩
  have w11 : WholeDollar "11.00" 11 :=
    ⟨['1', '1'], by simp, by
      intro c hc
      simp at hc
      subst hc
      exact asciiDigit_of _ rfl, rfl, rfl⟩
  refine ⟨w9, w11, fun env => ?_, fun env => ?_⟩
  · exact (whole_dollar_totals_same_points env targetReceipt "9.00" "11.00" 9 11 w9 w11
      (by norm_num) (by norm_num)).1
  · rw [(whole_dollar_totals_same_points env targetReceipt "11.00" "9.00" 11 9 w11 w9
      (by norm_num) (by norm_num)).2.1]
    rfl

set_option maxRecDepth 100000 in
/-- C16: the header comment gives the 25 points of rule 3 to a total that is a
multiple of 0.25, which every whole-dollar total is, but the cents are
`int(totalFloat*100)`: 360287970189641 * 100 is not a `float64` (it rounds to
36028797018964096, which 25 does not divide), so rule 3 adds nothing for
"360287970189641.00". The receipt of the handler test scores 87 with the total
"9.00" and 62 with that one, two whole-dollar totals. -/
theorem huge_whole_dollar_total_loses_25 :
    totalPattern "360287970189641.00" = true ∧
    (∀ env : GoEnv, F64.toInt env
      (F64.mul (ParseFloat env "360287970189641.00") (F64.ofNat 100)) = 36028797018964096) ∧
    (∀ env : GoEnv, CalculatePoints env { targetReceipt with Total := "9.00" } = 87) ∧
    (∀ env : GoEnv,
      CalculatePoints env { targetReceipt with Total := "360287970189641.00" } = 62) :=
  ⟨by decide, fun _ => rfl, fun _ => rfl, fun _ => rfl⟩

/-! ## Theorems: no rule subtracts -/

theorem ofRatio_false_nonNeg (n d : Nat) : F64.NonNeg (F64.ofRatio false n d) := by
  unfold F64.ofRatio
  by_cases hn : n = 0
  · simp [hn, F64.NonNeg]
  · rw [if_neg hn]
    simp only [Bool.false_eq_true, if_false]
    split_ifs <;> simp [F64.NonNeg]

theorem fifth_eq : F64.fifth = .fin 7205759403792794 (-55) := by decide

theorem mul_fifth_nonNeg (f : F64) (h : F64.NonNeg f) : F64.NonNeg (F64.mul f F64.fifth) := by
  rw [fifth_eq]
  cases f with
  | fin m e =>
    simp only [F64.NonNeg] at h
    have hneg : ¬ (m * 7205759403792794 < 0) := by
      have : 0 ≤ m * 7205759403792794 := Int.mul_nonneg h (by norm_num)
      omega
    simp only [F64.mul, hneg, decide_False]
    exact ofRatio_false_nonNeg _ _
  | inf neg =>
    simp only [F64.NonNeg] at h
    subst h
    simp [F64.mul, F64.NonNeg]
  | nan => exact h.elim

theorem ceil_nonNeg (f : F64) (h : F64.NonNeg f) : F64.NonNeg (F64.ceil f) := by
  cases f with
  | fin m e =>
    simp only [F64.NonNeg] at h
    simp only [F64.ceil]
    split_ifs
    · exact h
    · simp only [F64.NonNeg]
      have hpos : (0 : Int) < 2 ^ (-e).toNat := by positivity
      have h1 : -m / 2 ^ (-e).toNat ≤ 0 / 2 ^ (-e).toNat :=
        Int.ediv_le_ediv hpos (by omega)
      rw [Int.zero_ediv] at h1
      omega
  | inf neg => exact h
  | nan => exact h

theorem toInt_nonneg (env : GoEnv) (f : F64) (h : F64.NonNeg f) (hfit : F64.fitsInt f = true) :
    0 ≤ F64.toInt env f := by
  cases f with
  | fin m e =>
    simp only [F64.NonNeg] at h
    simp only [F64.fitsInt, decide_eq_true_eq] at hfit
    simp only [F64.toInt]
    rw [if_pos hfit]
    split_ifs
    · positivity
    · exact Int.tdiv_nonneg h (by positivity)
  | inf neg => simp [F64.fitsInt] at hfit
  | nan => simp [F64.fitsInt] at hfit

theorem parseFloat_nonNeg (env : GoEnv) (s : String) (h : DecimalShape s) :
    F64.NonNeg (ParseFloat env s) := by
  obtain ⟨ds, a, b, hne, hds, ha, hb, hdata⟩ := h
  unfold ParseFloat
  rw [hdata, decimalParts_shape ds a b hne hds ha hb]
  exact ofRatio_false_nonNeg _ _

theorem itemPoints_nonneg (env : GoEnv) (item : Item) (hshape : DecimalShape item.Price)
    (hfit : byteLen (TrimSpace item.ShortDescription.data) % 3 = 0 →
      F64.fitsInt (F64.ceil (F64.mul (ParseFloat env item.Price) F64.fifth)) = true) :
    0 ≤ itemPoints env item := by
  unfold itemPoints
  split_ifs with h3
  · exact toInt_nonneg env _
      (ceil_nonNeg _ (mul_fifth_nonNeg _ (parseFloat_nonNeg env _ hshape))) (hfit h3)
  · exact le_refl 0

theorem points5_nonneg (env : GoEnv) (items : List Item)
    (hshape : ∀ item ∈ items, DecimalShape item.Price)
    (hfit : ∀ item ∈ items, byteLen (TrimSpace item.ShortDescription.data) % 3 = 0 →
      F64.fitsInt (F64.ceil (F64.mul (ParseFloat env item.Price) F64.fifth)) = true) :
    0 ≤ (items.map (itemPoints env)).sum := by
  induction items with
  | nil => simp
  | cons item rest ih =>
    rw [List.map_cons, List.sum_cons]
    have h1 := itemPoints_nonneg env item (hshape item (by simp)) (hfit item (by simp))
    have h2 := ih (fun i hi => hshape i (by simp [hi])) (fun i hi => hfit i (by simp [hi]))
    omega

theorem fixed_points_nonneg (env : GoEnv) (r : Receipt) :
    0 ≤ points2 env r ∧ 0 ≤ points3 env r ∧ 0 ≤ points4 r ∧ 0 ≤ points7 r ∧ 0 ≤ points8 r := by
  refine ⟨?_, ?_, ?_, ?_, ?_⟩
  · unfold points2; split_ifs <;> norm_num
  · unfold points3; split_ifs <;> norm_num
  · unfold points4; positivity
  · unfold points7; split_ifs <;> norm_num
  · unfold points8; split_ifs <;> norm_num

/-- C19 (as the code has it): no rule subtracts, but the running total is a
64-bit `int`. For a receipt whose item prices all have the validated shape,
if every `int(math.Ceil(price * 0.2))` that rule 5 adds fits 64 bits and the
sum of what the rules add is below `2^63`, then `CalculatePoints` is that sum,
is at least the number of ASCII letters and digits of the retailer, and is not
negative. -/
theorem points_at_least_alnum_count (env : GoEnv) (r : Receipt)
    (hshape : ∀ item ∈ r.Items, DecimalShape item.Price)
    (hfit : ∀ item ∈ r.Items, byteLen (TrimSpace item.ShortDescription.data) % 3 = 0 →
      F64.fitsInt (F64.ceil (F64.mul (ParseFloat env item.Price) F64.fifth)) = true)
    (hsum : (countAlnum r.Retailer : Int) + points2 env r + points3 env r + points4 r +
      points5 env r + points7 r + points8 r < 9223372036854775808) :
    CalculatePoints env r =
      (countAlnum r.Retailer : Int) + points2 env r + points3 env r + points4 r +
        points5 env r + points7 r + points8 r ∧
    (countAlnum r.Retailer : Int) ≤ CalculatePoints env r ∧
    0 ≤ CalculatePoints env r := by
  obtain ⟨h2, h3, h4, h7, h8⟩ := fixed_points_nonneg env r
  have h5 : 0 ≤ points5 env r := points5_nonneg env r.Items hshape hfit
  have hc : (0 : Int) ≤ (countAlnum r.Retailer : Int) := Int.natCast_nonneg _
  have key : CalculatePoints env r =
      (countAlnum r.Retailer : Int) + points2 env r + points3 env r + points4 r +
        points5 env r + points7 r + points8 r := by
    rw [calculatePoints_eq]
    exact wrap64_of_inRange _ (by omega) hsum
  refine ⟨key, ?_, ?_⟩ <;> rw [key] <;> omega

set_option maxRecDepth 100000 in
/-- C19 at the receipt of the test with retailer "Test Retailer", total "10.00"
and the item "abc" at "5.00": the price has the validated shape, its fifth
rounds up to 1, the rules add 12 + 50 + 25 + 0 + 1 + 6 + 0 = 94, and the
points are at least the 12 letters of the retailer and at least 10. -/
theorem points_at_least_alnum_count_witness :
    DecimalShape "5.00" ∧
    (∀ env : GoEnv, (12 : Int) ≤ CalculatePoints env multipleOf3Receipt ∧
      (10 : Int) ≤ CalculatePoints env multipleOf3Receipt ∧
      CalculatePoints env multipleOf3Receipt = 94) := by
  have hshape5 : DecimalShape "5.00" :=
    ⟨['5'], '0', '0', by simp, by intro c hc; simp at hc; subst hc; exact asciiDigit_of _ rfl,
      asciiDigit_of _ rfl, asciiDigit_of _ rfl, rfl⟩
  refine ⟨hshape5, fun env => ?_⟩
  have e2 : points2 env multipleOf3Receipt = 50 := points2_ten env _ rfl
  have e3 : points3 env multipleOf3Receipt = 25 := points3_ten env _ rfl
  have e4 : points4 multipleOf3Receipt = 0 := rfl
  have e5 : points5 env multipleOf3Receipt = 1 := rfl
  have e7 : points7 multipleOf3Receipt = 6 := rfl
  have e8 : points8 multipleOf3Receipt = 0 := rfl
  have ec : (countAlnum multipleOf3Receipt.Retailer : Int) = 12 := rfl
  have h := points_at_least_alnum_count env multipleOf3Receipt
    (by
      intro item hi
      have : item = { ShortDescription := "abc", Price := "5.00" } := by
        simpa [multipleOf3Receipt] using hi
      subst this
      exact hshape5)
    (by
      intro item hi _
      have : item = { ShortDescription := "abc", Price := "5.00" } := by
        simpa [multipleOf3Receipt] using hi
      subst this
      rfl)
    (by rw [e2, e3, e4, e5, e7, e8, ec]; norm_num)
  rw [e2, e3, e4, e5, e7, e8, ec] at h
  obtain ⟨hval, -, -⟩ := h
  rw [hval]
  norm_num

set_option maxRecDepth 100000 in
/-- C19, the claim as stated fails: the receipt of the handler test with two
items "abc" priced "30000000000000000000.00" passes validation; each item adds
6000000000000000000, which fits 64 bits, and the sum wraps around: the points
are -6446744073709551599, below zero and below the 6 letters of "Target". -/
theorem huge_prices_wrap_negative :
    validateReceipt overflowReceipt = (true, []) ∧
    (∀ env : GoEnv, itemPoints env
      { ShortDescription := "abc", Price := "30000000000000000000.00" } = 6000000000000000000) ∧
    (∀ env : GoEnv, CalculatePoints env overflowReceipt = -6446744073709551599) ∧
    countAlnum overflowReceipt.Retailer = 6 :=
  ⟨by decide, fun _ => rfl, fun _ => rfl, by decide⟩

/-! ## Theorems: the running total at the end of the range of `int` -/

set_option maxRecDepth 100000 in
/-- C7, the claim as stated fails: with the items "abc" at
"46116860184273870000.00" and "abc" at "5000.00", which the validator accepts,
the receipt scores 9223372036854775801 with the retailer "Target" (6 letters)
and, the sum passing `2^63 - 1`, -9223372036854775807 with the retailer
"TargetTarget12" (14 letters and digits): the points differ by
-18446744073709551608 and the counts by 8. -/
theorem retailer_difference_wraps :
    validateReceipt nearMaxReceipt = (true, []) ∧
    validateReceipt { nearMaxReceipt with Retailer := "TargetTarget12" } = (true, []) ∧
    countAlnum "Target" = 6 ∧ countAlnum "TargetTarget12" = 14 ∧
    (∀ env : GoEnv, CalculatePoints env nearMaxReceipt = 9223372036854775801) ∧
    (∀ env : GoEnv, CalculatePoints env { nearMaxReceipt with Retailer := "TargetTarget12" }
      = -9223372036854775807) ∧
    (∀ env : GoEnv,
      CalculatePoints env { nearMaxReceipt with Retailer := "TargetTarget12" } -
        CalculatePoints env nearMaxReceipt ≠
      ((countAlnum "TargetTarget12" : Nat) : Int) - ((countAlnum "Target" : Nat) : Int)) := by
  have hA : ∀ env : GoEnv, CalculatePoints env nearMaxReceipt = 9223372036854775801 :=
    fun _ => rfl
  have hB : ∀ env : GoEnv,
      CalculatePoints env { nearMaxReceipt with Retailer := "TargetTarget12" }
        = -9223372036854775807 := fun _ => rfl
  refine ⟨by decide, by decide, by decide, by decide, hA, hB, fun env => ?_⟩
  rw [hA env, hB env]
  decide

set_option maxRecDepth 100000 in
/-- C14, the claim as stated fails: the receipt of the handler test with the
total "10.00" and the items "abc" at "46116860184273870000.00" and "abc" at
"5000.00" passes validation; 75 plus what rules 1, 4, 5, 7 and 8 add is
9223372036854775876, above `2^63 - 1`, and `CalculatePoints` returns
-9223372036854775740. -/
theorem total_ten_sum_wraps :
    validateReceipt { nearMaxReceipt with Total := "10.00" } = (true, []) ∧
    (∀ env : GoEnv, CalculatePoints env { nearMaxReceipt with Total := "10.00" }
      = -9223372036854775740) ∧
    (∀ env : GoEnv,
      75 + ((countAlnum nearMaxReceipt.Retailer : Int) + points4 nearMaxReceipt +
        points5 env nearMaxReceipt + points7 nearMaxReceipt + points8 nearMaxReceipt)
      = 9223372036854775876) :=
  ⟨by decide, fun _ => rfl, fun _ => rfl⟩

/-- C7 at the receipt of the handler test: with the retailer "M&M Corner Market"
(14 letters) instead of "Target" (6 letters) it scores 20 instead of 12, and
the difference 8 is the difference of the two counts. -/
theorem retailer_adds_alnum_count_witness :
    (∀ env : GoEnv, CalculatePoints env { targetReceipt with Retailer := "Target" } = 12) ∧
    (∀ env : GoEnv,
      CalculatePoints env { targetReceipt with Retailer := "M&M Corner Market" } -
        CalculatePoints env { targetReceipt with Retailer := "Target" } = 14 - 6) := by
  have h12 : ∀ env : GoEnv, CalculatePoints env { targetReceipt with Retailer := "Target" } = 12 :=
    fun _ => rfl
  refine ⟨h12, fun env => ?_⟩
  have h := (retailer_adds_alnum_count env targetReceipt "M&M Corner Market" "Target").2.1
  have ca : countAlnum "M&M Corner Market" = 14 := by decide
  have cb : countAlnum "Target" = 6 := by decide
  rw [ca, cb, h12 env] at h
  exact h ⟨by norm_num, by norm_num⟩

end Receipts
